import Mathlib

/-! Adiabatic-hydro equation of state.

A shallow embedding of `src/mix_rad/src/eos/adiabatic_hydro.cpp` (class `EquationOfState`
for adiabatic hydrodynamics) and theorems about it.

Conventions of the embedding.

* `Real` is a linear ordered field `K` (exact arithmetic): rounding, infinities and NaN are
  outside the model.  Every definition is computable and evaluates at `K = ℚ`.
  The one place where rounding is modelled is `ConservedToPrimitiveRounded`, the same sweep
  with the result of every arithmetic operation passed through a rounding `rnd`
  (`fl64`, binary64 round-to-nearest, for the C++ `double`; the identity for exact arithmetic).
* An `AthenaArray<Real>` accessed as `a(n,k,j,i)` is a total function of the field index `n`
  and the cell coordinates `k j i`; array bounds are not modelled.  An in-place write is
  `AthenaArray.set`.  A C++ reference `Real& u_d = cons(IDN,k,j,i)` is read and written through
  the array itself, in the order of the source statements.
* `for (int i=il; i<=iu; ++i)` is `forLoop il iu`, a left fold over the integers `il, …, iu`.
* The unused arguments of the source functions (`prim_old`, `b`, `bcc`, `pco`) are dropped.
-/

namespace TwoMix

/-! ## Constants and containers declared outside this file's source -/

/-- Modelled from the spec: the field-index enumeration of `athena.hpp` (not under `src/`),
"`{density=0, momentum-1, momentum-2, momentum-3, energy}` for conserved". -/
abbrev IDN : Nat := 0
/-- Modelled from the spec: index of the first momentum component (`athena.hpp`). -/
abbrev IM1 : Nat := 1
/-- Modelled from the spec: index of the second momentum component (`athena.hpp`). -/
abbrev IM2 : Nat := 2
/-- Modelled from the spec: index of the third momentum component (`athena.hpp`). -/
abbrev IM3 : Nat := 3
/-- Modelled from the spec: index of the total energy (`athena.hpp`). -/
abbrev IEN : Nat := 4
/-- Modelled from the spec: index of the first velocity component (`athena.hpp`),
"`{density, velocity-1, velocity-2, velocity-3, pressure}` for primitive". -/
abbrev IVX : Nat := 1
/-- Modelled from the spec: index of the second velocity component (`athena.hpp`). -/
abbrev IVY : Nat := 2
/-- Modelled from the spec: index of the third velocity component (`athena.hpp`). -/
abbrev IVZ : Nat := 3
/-- Modelled from the spec: index of the pressure (`athena.hpp`). -/
abbrev IPR : Nat := 4
/-- Modelled from the spec: the number of hydro fields of a cell (`athena.hpp`). -/
abbrev NHYDRO : Nat := 5

/-- Modelled from the spec: `AthenaArray<Real>` of `athena_arrays.hpp` (not under `src/`),
"indexed by `(field, k, j, i)` for 3-D block-local cell coordinates". -/
abbrev AthenaArray (K : Type) := Nat → Int → Int → Int → K

/-- Modelled from the spec: the two-index view `a(n,i)` of `athena_arrays.hpp`,
"`(field, i)` for a single reconstructed-interface slice". -/
abbrev AthenaSlice (K : Type) := Nat → Int → K

/-- In-place write `a(n,k,j,i) = v`. -/
def AthenaArray.set {K : Type} (a : AthenaArray K) (n : Nat) (k j i : Int) (v : K) :
    AthenaArray K :=
  fun n' k' j' i' => if n' = n ∧ k' = k ∧ j' = j ∧ i' = i then v else a n' k' j' i'

/-- In-place write `a(n,i) = v`. -/
def AthenaSlice.set {K : Type} (a : AthenaSlice K) (n : Nat) (i : Int) (v : K) :
    AthenaSlice K :=
  fun n' i' => if n' = n ∧ i' = i then v else a n' i'

/-- Modelled from the spec: the macro `SQR` of `athena.hpp` (not under `src/`), the square. -/
def SQR {K : Type} [Mul K] (x : K) : K := x * x

/-- The integers `lo, lo+1, …, hi` in increasing order (empty when `hi < lo`). -/
def intRange (lo hi : Int) : List Int :=
  (List.range (hi + 1 - lo).toNat).map (fun (n : Nat) => lo + (n : Int))

/-- The loop `for (int x=lo; x<=hi; ++x) body(x)` acting on a state `σ`. -/
def forLoop {σ : Type} (lo hi : Int) (body : Int → σ → σ) (s : σ) : σ :=
  (intRange lo hi).foldl (fun s x => body x s) s

/-! ## The class `EquationOfState` -/

/-- The data members of `EquationOfState` (the back pointer `pmy_block_` is dropped). -/
structure EquationOfState (K : Type) where
  gamma_ : K
  density_floor_ : K
  pressure_floor_ : K
  scalar_floor_ : K

/-- Modelled from the spec: the `hydro` block of `ParameterInput` (`parameter_input.hpp`, not
under `src/`): `gamma` is read with `GetReal` (required), the floors with `GetOrAddReal`
("get-with-default semantics"); `none` is an absent key. -/
structure ParameterInput (K : Type) where
  gamma : Option K
  dfloor : Option K
  pfloor : Option K
  sfloor : Option K

/-- Modelled from the spec: `GetOrAddReal(block, name, def)`, the stored value or the default. -/
def GetOrAddReal {K : Type} (v : Option K) (dflt : K) : K := v.getD dflt

variable {K : Type} [LinearOrderedField K]

/-- The constructor `EquationOfState::EquationOfState`.  The constant `float_min` (declared
outside this file's source) and `std::sqrt` are parameters; a missing `gamma` makes `GetReal`
fail. -/
def EquationOfState.ctor (sqrt : K → K) (float_min : K) (pin : ParameterInput K) :
    Option (EquationOfState K) :=
  match pin.gamma with
  | none => none
  | some g =>
    some { gamma_ := g
           density_floor_ := GetOrAddReal pin.dfloor (sqrt (1024 * float_min))
           pressure_floor_ := GetOrAddReal pin.pfloor (sqrt (1024 * float_min))
           scalar_floor_ := GetOrAddReal pin.sfloor (sqrt (1024 * float_min)) }

/-- Modelled from the spec: the accessor `GetGamma` of `eos.hpp` (not under `src/`), the
adiabatic index `gamma`. -/
def EquationOfState.GetGamma (eos : EquationOfState K) : K := eos.gamma_

/-- The pair of arrays a conversion works on. -/
structure HydroArrays (K : Type) where
  cons : AthenaArray K
  prim : AthenaArray K

/-- Body of the innermost loop of `ConservedToPrimitive` at the cell `(k,j,i)`. -/
def ConservedToPrimitive.body (eos : EquationOfState K) (gm1 : K) (k j i : Int)
    (s : HydroArrays K) : HydroArrays K :=
  let cons := s.cons
  let prim := s.prim
  -- apply density floor, without changing momentum or energy
  let cons := cons.set IDN k j i
    (if cons IDN k j i > eos.density_floor_ then cons IDN k j i else eos.density_floor_)
  let prim := prim.set IDN k j i (cons IDN k j i)
  let di := 1.0 / cons IDN k j i
  let prim := prim.set IVX k j i (cons IM1 k j i * di)
  let prim := prim.set IVY k j i (cons IM2 k j i * di)
  let prim := prim.set IVZ k j i (cons IM3 k j i * di)
  let e_k := 0.5 * di * (SQR (cons IM1 k j i) + SQR (cons IM2 k j i) + SQR (cons IM3 k j i))
  let prim := prim.set IPR k j i (gm1 * (cons IEN k j i - e_k))
  -- apply pressure floor, correct total energy
  let cons := cons.set IEN k j i
    (if prim IPR k j i > eos.pressure_floor_ then cons IEN k j i
     else (eos.pressure_floor_ / gm1) + e_k)
  let prim := prim.set IPR k j i
    (if prim IPR k j i > eos.pressure_floor_ then prim IPR k j i else eos.pressure_floor_)
  { cons := cons, prim := prim }

/-- The function `EquationOfState::ConservedToPrimitive`: converts conserved into primitive
variables over the index range, flooring density and pressure in place. -/
def ConservedToPrimitive (eos : EquationOfState K) (cons prim : AthenaArray K)
    (il iu jl ju kl ku : Int) : HydroArrays K :=
  let gm1 := eos.GetGamma - 1.0
  forLoop kl ku (fun k s =>
    forLoop jl ju (fun j s =>
      forLoop il iu (fun i s => ConservedToPrimitive.body eos gm1 k j i s) s) s)
    { cons := cons, prim := prim }

/-- Body of the innermost loop of `PrimitiveToConserved` at the cell `(k,j,i)`. -/
def PrimitiveToConserved.body (prim : AthenaArray K) (igm1 : K) (k j i : Int)
    (cons : AthenaArray K) : AthenaArray K :=
  let cons := cons.set IDN k j i (prim IDN k j i)
  let cons := cons.set IM1 k j i (prim IVX k j i * prim IDN k j i)
  let cons := cons.set IM2 k j i (prim IVY k j i * prim IDN k j i)
  let cons := cons.set IM3 k j i (prim IVZ k j i * prim IDN k j i)
  let cons := cons.set IEN k j i
    (prim IPR k j i * igm1
      + 0.5 * prim IDN k j i * (SQR (prim IVX k j i) + SQR (prim IVY k j i)
                                + SQR (prim IVZ k j i)))
  cons

/-- The function `EquationOfState::PrimitiveToConserved`: converts primitive variables into
conservative variables over the index range.  The array `prim` is `const`; the result is the
array `cons` after the call. -/
def PrimitiveToConserved (eos : EquationOfState K) (prim cons : AthenaArray K)
    (il iu jl ju kl ku : Int) : AthenaArray K :=
  let igm1 := 1.0 / (eos.GetGamma - 1.0)
  forLoop kl ku (fun k s =>
    forLoop jl ju (fun j s =>
      forLoop il iu (fun i s => PrimitiveToConserved.body prim igm1 k j i s) s) s)
    cons

/-- The function `EquationOfState::SoundSpeed`: adiabatic sound speed of a vector of primitive
variables; `std::sqrt` is a parameter. -/
def SoundSpeed (sqrt : K → K) (eos : EquationOfState K) (prim : Nat → K) (_k _j _i : Int) : K :=
  sqrt (eos.gamma_ * prim IPR / prim IDN)

/-- The function `EquationOfState::ApplyPrimitiveFloors`: density and pressure floors on the
reconstructed interface state `i` (the arguments `k`, `j` are unused by the source). -/
def ApplyPrimitiveFloors (eos : EquationOfState K) (prim : AthenaSlice K) (_k _j i : Int) :
    AthenaSlice K :=
  -- apply (prim) density floor
  let prim := prim.set IDN i
    (if prim IDN i > eos.density_floor_ then prim IDN i else eos.density_floor_)
  -- apply pressure floor
  let prim := prim.set IPR i
    (if prim IPR i > eos.pressure_floor_ then prim IPR i else eos.pressure_floor_)
  prim

/-- The function `EquationOfState::ApplyPrimitiveConservedFloors`: pressure (prim) floor and
energy (cons) correction at one cell. -/
def ApplyPrimitiveConservedFloors (eos : EquationOfState K) (prim cons : AthenaArray K)
    (k j i : Int) : HydroArrays K :=
  let gm1 := eos.GetGamma - 1.0
  -- apply (prim) density floor, without changing momentum or energy
  let prim := prim.set IDN k j i
    (if prim IDN k j i > eos.density_floor_ then prim IDN k j i else eos.density_floor_)
  -- ensure cons density matches
  let cons := cons.set IDN k j i (prim IDN k j i)
  let e_k := 0.5 * prim IDN k j i
    * (SQR (prim IVX k j i) + SQR (prim IVY k j i) + SQR (prim IVZ k j i))
  -- apply pressure floor, correct total energy
  let cons := cons.set IEN k j i
    (if prim IPR k j i > eos.pressure_floor_ then cons IEN k j i
     else (eos.pressure_floor_ / gm1) + e_k)
  let prim := prim.set IPR k j i
    (if prim IPR k j i > eos.pressure_floor_ then prim IPR k j i else eos.pressure_floor_)
  { cons := cons, prim := prim }

/-! ## Views of a cell -/

/-- The values of both arrays at one cell. -/
def HydroArrays.cell (s : HydroArrays K) (k j i : Int) : (Nat → K) × (Nat → K) :=
  (fun n => s.cons n k j i, fun n => s.prim n k j i)

/-- The pair of arrays that hold the given cell values everywhere. -/
def HydroArrays.ofCell (v : (Nat → K) × (Nat → K)) : HydroArrays K :=
  { cons := fun n _ _ _ => v.1 n, prim := fun n _ _ _ => v.2 n }

/-! ## Concrete data -/

/-- The conserved array of the default-floor scenario: every cell holds
`(rho = 1e-10, m = (0,0,0), E = 1e-10)`. -/
def scenarioCons (K : Type) [LinearOrderedField K] : AthenaArray K :=
  fun n _ _ _ => if n = IDN then 1e-10 else if n = IEN then 1e-10 else 0

/-- The parameter input of the default-floor scenario: `gamma = 1.4`, no floor given. -/
def scenarioInput (K : Type) [LinearOrderedField K] : ParameterInput K :=
  { gamma := some 1.4, dfloor := none, pfloor := none, sfloor := none }

/-- A configuration over the rationals: `gamma = 7/5`, all floors `1/100`. -/
def demoEos : EquationOfState ℚ :=
  { gamma_ := 7 / 5, density_floor_ := 1 / 100, pressure_floor_ := 1 / 100,
    scalar_floor_ := 1 / 100 }

/-- A primitive array all of whose cells hold `(rho = 1, v = (1,0,0), p = 1)`. -/
def demoPrim : AthenaArray ℚ :=
  fun n _ _ _ => if n = IDN then 1 else if n = IVX then 1 else if n = IPR then 1 else 0

/-- A conserved array all of whose cells hold `(rho = 2, m = (2,0,0), E = 5)`. -/
def demoCons : AthenaArray ℚ :=
  fun n _ _ _ => if n = IDN then 2 else if n = IM1 then 2 else if n = IEN then 5 else 0

/-- A conserved array all of whose cells hold `(rho = 0, m = (1,0,0), E = 100)`, a density
under the floor of `demoEos`. -/
def lowCons : AthenaArray ℚ :=
  fun n _ _ _ => if n = IDN then 0 else if n = IM1 then 1 else if n = IEN then 100 else 0

/-- An array of zeros. -/
def zeroArray : AthenaArray ℚ := fun _ _ _ _ => 0

/-- A configuration over the rationals whose floors are high: `gamma = 7/5`,
`density_floor = 1`, `pressure_floor = 37/10`. -/
def highFloorEos : EquationOfState ℚ :=
  { gamma_ := 7 / 5, density_floor_ := 1, pressure_floor_ := 37 / 10,
    scalar_floor_ := 1 / 100 }

/-- A conserved array all of whose cells hold `(rho = 1/2, m = (1,0,0), E = 10)`. -/
def thinCons : AthenaArray ℚ :=
  fun n _ _ _ => if n = IDN then 1 / 2 else if n = IM1 then 1 else if n = IEN then 10 else 0

/-- The conversion of `thinCons` without floors at `gamma = 7/5`: every cell holds
`(rho = 1/2, v = (2,0,0), p = (2/5)*(10 - 1) = 18/5)`. -/
def thinPrim : AthenaArray ℚ :=
  fun n _ _ _ => if n = IDN then 1 / 2 else if n = IVX then 2 else if n = IPR then 18 / 5 else 0

/-! ## Loops -/

theorem mem_intRange (lo hi x : Int) : x ∈ intRange lo hi ↔ lo ≤ x ∧ x ≤ hi := by
  unfold intRange
  simp only [List.mem_map, List.mem_range]
  constructor
  · rintro ⟨n, hn, rfl⟩
    omega
  · intro h
    exact ⟨(x - lo).toNat, by omega, by omega⟩

theorem nodup_intRange (lo hi : Int) : (intRange lo hi).Nodup := by
  unfold intRange
  refine (List.nodup_range _).map ?_
  intro a b h
  have h2 : lo + (a : Int) = lo + (b : Int) := h
  omega

/-- Reading one observable `get` through a fold whose steps leave it alone except the step
of index `x0`, which acts on it as `f`. -/
theorem foldl_get {S ι V : Type} [DecidableEq ι] (get : S → V) (step : ι → S → S) (f : V → V) (x0 : ι)
    (h_hit : ∀ s, get (step x0 s) = f (get s))
    (h_miss : ∀ x s, x ≠ x0 → get (step x s) = get s)
    (l : List ι) (hnd : l.Nodup) (s : S) :
    get (l.foldl (fun s x => step x s) s) = if x0 ∈ l then f (get s) else get s := by
  induction l generalizing s with
  | nil => simp
  | cons x l ih =>
    rw [List.nodup_cons] at hnd
    rw [List.foldl_cons, ih hnd.2]
    by_cases hx : x = x0
    · subst hx
      simp [hnd.1, h_hit]
    · have hx2 : x0 ≠ x := fun h => hx h.symm
      simp [hx2, h_miss x s hx]

/-- One `for` loop read through `get`. -/
theorem forLoop_get {S V : Type} (get : S → V) (step : Int → S → S) (f : V → V) (x0 : Int)
    (h_hit : ∀ s, get (step x0 s) = f (get s))
    (h_miss : ∀ x s, x ≠ x0 → get (step x s) = get s)
    (lo hi : Int) (s : S) :
    get (forLoop lo hi step s) = if lo ≤ x0 ∧ x0 ≤ hi then f (get s) else get s := by
  unfold forLoop
  rw [foldl_get get step f x0 h_hit h_miss _ (nodup_intRange lo hi) s]
  simp only [mem_intRange]

/-- A `for` loop none of whose steps touches `get`. -/
theorem forLoop_get_frame {S V : Type} (get : S → V) (step : Int → S → S)
    (h_miss : ∀ x s, get (step x s) = get s) (lo hi : Int) (s : S) :
    get (forLoop lo hi step s) = get s := by
  have h := forLoop_get get step id 0 (fun s => h_miss 0 s) (fun x s _ => h_miss x s) lo hi s
  simpa using h

/-- The triple loop over `[kl,ku] × [jl,ju] × [il,iu]` read at the cell `(k0,j0,i0)`: the body
acts once, as `f`, when the cell is in the range, and not at all otherwise. -/
theorem tripleLoop_get {S V : Type} (get : S → V) (body : Int → Int → Int → S → S)
    (f : V → V) (k0 j0 i0 : Int)
    (h_hit : ∀ s, get (body k0 j0 i0 s) = f (get s))
    (h_miss : ∀ k j i s, ¬ (k = k0 ∧ j = j0 ∧ i = i0) → get (body k j i s) = get s)
    (il iu jl ju kl ku : Int) (s : S) :
    get (forLoop kl ku (fun k s => forLoop jl ju (fun j s =>
          forLoop il iu (fun i s => body k j i s) s) s) s)
      = if (kl ≤ k0 ∧ k0 ≤ ku) ∧ (jl ≤ j0 ∧ j0 ≤ ju) ∧ (il ≤ i0 ∧ i0 ≤ iu)
        then f (get s) else get s := by
  -- the innermost loop
  have inner : ∀ k j s, get (forLoop il iu (fun i s => body k j i s) s)
      = if k = k0 ∧ j = j0 ∧ (il ≤ i0 ∧ i0 ≤ iu) then f (get s) else get s := by
    intro k j s
    by_cases hkj : k = k0 ∧ j = j0
    · obtain ⟨rfl, rfl⟩ := hkj
      rw [forLoop_get get (fun i s => body k j i s) f i0 h_hit
        (fun x s hx => h_miss k j x s (fun h => hx h.2.2))]
      simp
    · rw [forLoop_get_frame get (fun i s => body k j i s)
        (fun x s => h_miss k j x s (fun h => hkj ⟨h.1, h.2.1⟩))]
      have : ¬ (k = k0 ∧ j = j0 ∧ (il ≤ i0 ∧ i0 ≤ iu)) := fun h => hkj ⟨h.1, h.2.1⟩
      simp [this]
  -- the middle loop
  have middle : ∀ k s, get (forLoop jl ju (fun j s =>
        forLoop il iu (fun i s => body k j i s) s) s)
      = if k = k0 ∧ (jl ≤ j0 ∧ j0 ≤ ju) ∧ (il ≤ i0 ∧ i0 ≤ iu) then f (get s) else get s := by
    intro k s
    by_cases hk : k = k0 ∧ (il ≤ i0 ∧ i0 ≤ iu)
    · obtain ⟨rfl, hi⟩ := hk
      rw [forLoop_get get (fun j s => forLoop il iu (fun i s => body k j i s) s) f j0
        (fun s => by rw [inner]; simp [hi])
        (fun x s hx => by rw [inner]; simp [hx])]
      simp [hi]
    · rw [forLoop_get_frame get (fun j s => forLoop il iu (fun i s => body k j i s) s)
        (fun x s => by
          rw [inner]
          have : ¬ (k = k0 ∧ x = j0 ∧ (il ≤ i0 ∧ i0 ≤ iu)) := fun h => hk ⟨h.1, h.2.2⟩
          simp [this])]
      have : ¬ (k = k0 ∧ (jl ≤ j0 ∧ j0 ≤ ju) ∧ (il ≤ i0 ∧ i0 ≤ iu)) :=
        fun h => hk ⟨h.1, h.2.2⟩
      simp [this]
  -- the outermost loop
  by_cases hji : (jl ≤ j0 ∧ j0 ≤ ju) ∧ (il ≤ i0 ∧ i0 ≤ iu)
  · rw [forLoop_get get (fun k s => forLoop jl ju (fun j s =>
        forLoop il iu (fun i s => body k j i s) s) s) f k0
      (fun s => by rw [middle]; simp [hji])
      (fun x s hx => by rw [middle]; simp [hx])]
    simp [hji]
  · rw [forLoop_get_frame get (fun k s => forLoop jl ju (fun j s =>
        forLoop il iu (fun i s => body k j i s) s) s)
      (fun x s => by
        rw [middle]
        have : ¬ (x = k0 ∧ (jl ≤ j0 ∧ j0 ≤ ju) ∧ (il ≤ i0 ∧ i0 ≤ iu)) := fun h => hji h.2
        simp [this])]
    have : ¬ ((kl ≤ k0 ∧ k0 ≤ ku) ∧ (jl ≤ j0 ∧ j0 ≤ ju) ∧ (il ≤ i0 ∧ i0 ≤ iu)) :=
      fun h => hji h.2
    simp [this]

/-! ## Array writes -/

theorem AthenaArray.set_other_cell {α : Type} (a : AthenaArray α) (n n' : Nat)
    (k j i k' j' i' : Int) (v : α) (h : ¬ (k = k' ∧ j = j' ∧ i = i')) :
    (a.set n k j i v) n' k' j' i' = a n' k' j' i' := by
  unfold AthenaArray.set
  rw [if_neg]
  rintro ⟨_, rfl, rfl, rfl⟩
  exact h ⟨rfl, rfl, rfl⟩

theorem AthenaArray.set_same_cell {α : Type} (a : AthenaArray α) (n n' : Nat) (k j i : Int)
    (v : α) :
    (a.set n k j i v) n' k j i = if n' = n then v else a n' k j i := by
  unfold AthenaArray.set
  simp

/-! ## The sweep of `ConservedToPrimitive` at one cell -/

theorem ConservedToPrimitive_body_frame (eos : EquationOfState K) (gm1 : K)
    (k j i k0 j0 i0 : Int) (s : HydroArrays K) (h : ¬ (k = k0 ∧ j = j0 ∧ i = i0)) :
    (ConservedToPrimitive.body eos gm1 k j i s).cell k0 j0 i0 = s.cell k0 j0 i0 := by
  unfold ConservedToPrimitive.body HydroArrays.cell
  simp only [AthenaArray.set_other_cell _ _ _ _ _ _ _ _ _ _ h]

theorem ConservedToPrimitive_body_local (eos : EquationOfState K) (gm1 : K)
    (k j i : Int) (s : HydroArrays K) :
    (ConservedToPrimitive.body eos gm1 k j i s).cell k j i
      = (ConservedToPrimitive.body eos gm1 k j i
          (HydroArrays.ofCell (s.cell k j i))).cell k j i := by
  unfold ConservedToPrimitive.body HydroArrays.cell HydroArrays.ofCell
  simp only [AthenaArray.set_same_cell]

/-- Inside the range the sweep acts at a cell as one run of the loop body on the input
arrays. -/
theorem ConservedToPrimitive_cell_in (eos : EquationOfState K) (cons prim : AthenaArray K)
    (il iu jl ju kl ku k j i : Int)
    (h : (kl ≤ k ∧ k ≤ ku) ∧ (jl ≤ j ∧ j ≤ ju) ∧ (il ≤ i ∧ i ≤ iu)) :
    (ConservedToPrimitive eos cons prim il iu jl ju kl ku).cell k j i
      = (ConservedToPrimitive.body eos (eos.GetGamma - 1.0) k j i
          { cons := cons, prim := prim }).cell k j i := by
  unfold ConservedToPrimitive
  rw [tripleLoop_get (fun s => HydroArrays.cell s k j i)
    (fun k j i s => ConservedToPrimitive.body eos (eos.GetGamma - 1.0) k j i s)
    (fun v => (ConservedToPrimitive.body eos (eos.GetGamma - 1.0) k j i
      (HydroArrays.ofCell v)).cell k j i) k j i
    (fun s => ConservedToPrimitive_body_local eos _ k j i s)
    (fun k' j' i' s hne => ConservedToPrimitive_body_frame eos _ k' j' i' k j i s hne)]
  rw [if_pos h]
  exact (ConservedToPrimitive_body_local eos _ k j i _).symm

/-- Outside the range the sweep leaves a cell as it was. -/
theorem ConservedToPrimitive_cell_out (eos : EquationOfState K) (cons prim : AthenaArray K)
    (il iu jl ju kl ku k j i : Int)
    (h : ¬ ((kl ≤ k ∧ k ≤ ku) ∧ (jl ≤ j ∧ j ≤ ju) ∧ (il ≤ i ∧ i ≤ iu))) :
    (ConservedToPrimitive eos cons prim il iu jl ju kl ku).cell k j i
      = (fun n => cons n k j i, fun n => prim n k j i) := by
  unfold ConservedToPrimitive
  rw [tripleLoop_get (fun s => HydroArrays.cell s k j i)
    (fun k j i s => ConservedToPrimitive.body eos (eos.GetGamma - 1.0) k j i s)
    (fun v => (ConservedToPrimitive.body eos (eos.GetGamma - 1.0) k j i
      (HydroArrays.ofCell v)).cell k j i) k j i
    (fun s => ConservedToPrimitive_body_local eos _ k j i s)
    (fun k' j' i' s hne => ConservedToPrimitive_body_frame eos _ k' j' i' k j i s hne)]
  rw [if_neg h]
  rfl

/-- The values the sweep of `ConservedToPrimitive` leaves at a cell of the range, in terms of
the floored density `d`, the kinetic energy `ek` and the candidate pressure `p`. -/
theorem ConservedToPrimitive_values (eos : EquationOfState K) (cons prim : AthenaArray K)
    (il iu jl ju kl ku k j i : Int)
    (h : (kl ≤ k ∧ k ≤ ku) ∧ (jl ≤ j ∧ j ≤ ju) ∧ (il ≤ i ∧ i ≤ iu))
    (d ek p : K)
    (hd : d = if cons IDN k j i > eos.density_floor_ then cons IDN k j i
              else eos.density_floor_)
    (hek : ek = 0.5 * (1.0 / d)
      * (SQR (cons IM1 k j i) + SQR (cons IM2 k j i) + SQR (cons IM3 k j i)))
    (hp : p = (eos.gamma_ - 1.0) * (cons IEN k j i - ek)) :
    ((ConservedToPrimitive eos cons prim il iu jl ju kl ku).cons IDN k j i = d
      ∧ (ConservedToPrimitive eos cons prim il iu jl ju kl ku).cons IEN k j i
          = (if p > eos.pressure_floor_ then cons IEN k j i
             else eos.pressure_floor_ / (eos.gamma_ - 1.0) + ek)
      ∧ ∀ n, n ≠ IDN → n ≠ IEN →
          (ConservedToPrimitive eos cons prim il iu jl ju kl ku).cons n k j i = cons n k j i)
    ∧ ((ConservedToPrimitive eos cons prim il iu jl ju kl ku).prim IDN k j i = d
      ∧ (ConservedToPrimitive eos cons prim il iu jl ju kl ku).prim IVX k j i
          = cons IM1 k j i * (1.0 / d)
      ∧ (ConservedToPrimitive eos cons prim il iu jl ju kl ku).prim IVY k j i
          = cons IM2 k j i * (1.0 / d)
      ∧ (ConservedToPrimitive eos cons prim il iu jl ju kl ku).prim IVZ k j i
          = cons IM3 k j i * (1.0 / d)
      ∧ (ConservedToPrimitive eos cons prim il iu jl ju kl ku).prim IPR k j i
          = (if p > eos.pressure_floor_ then p else eos.pressure_floor_)
      ∧ ∀ n, NHYDRO ≤ n →
          (ConservedToPrimitive eos cons prim il iu jl ju kl ku).prim n k j i
            = prim n k j i) := by
  have hc := ConservedToPrimitive_cell_in eos cons prim il iu jl ju kl ku k j i h
  have hcons : ∀ n, (ConservedToPrimitive eos cons prim il iu jl ju kl ku).cons n k j i
      = (ConservedToPrimitive.body eos (eos.GetGamma - 1.0) k j i
          { cons := cons, prim := prim }).cons n k j i :=
    fun n => congrFun (congrArg Prod.fst hc) n
  have hprim : ∀ n, (ConservedToPrimitive eos cons prim il iu jl ju kl ku).prim n k j i
      = (ConservedToPrimitive.body eos (eos.GetGamma - 1.0) k j i
          { cons := cons, prim := prim }).prim n k j i :=
    fun n => congrFun (congrArg Prod.snd hc) n
  subst hd hek hp
  refine ⟨⟨?_, ?_, ?_⟩, ?_, ?_, ?_, ?_, ?_, ?_⟩
  · rw [hcons]
    simp [ConservedToPrimitive.body, AthenaArray.set_same_cell]
  · rw [hcons]
    simp [ConservedToPrimitive.body, AthenaArray.set_same_cell, EquationOfState.GetGamma]
  · intro n h0 h4
    rw [hcons]
    simp [ConservedToPrimitive.body, AthenaArray.set_same_cell, h0, h4]
  · rw [hprim]
    simp [ConservedToPrimitive.body, AthenaArray.set_same_cell]
  · rw [hprim]
    simp [ConservedToPrimitive.body, AthenaArray.set_same_cell]
  · rw [hprim]
    simp [ConservedToPrimitive.body, AthenaArray.set_same_cell]
  · rw [hprim]
    simp [ConservedToPrimitive.body, AthenaArray.set_same_cell]
  · rw [hprim]
    simp [ConservedToPrimitive.body, AthenaArray.set_same_cell, EquationOfState.GetGamma]
  · intro n hn
    rw [hprim]
    have hn5 : 5 ≤ n := hn
    have h0 : n ≠ 0 := by omega
    have h1 : n ≠ 1 := by omega
    have h2 : n ≠ 2 := by omega
    have h3 : n ≠ 3 := by omega
    have h4 : n ≠ 4 := by omega
    simp [ConservedToPrimitive.body, AthenaArray.set_same_cell, h0, h1, h2, h3, h4]

/-! ## The rounded sweep of `ConservedToPrimitive` at one cell -/

theorem PrimitiveToConserved_body_frame (prim : AthenaArray K) (igm1 : K)
    (k j i k0 j0 i0 : Int) (cons : AthenaArray K) (h : ¬ (k = k0 ∧ j = j0 ∧ i = i0)) :
    (fun n => PrimitiveToConserved.body prim igm1 k j i cons n k0 j0 i0)
      = fun n => cons n k0 j0 i0 := by
  unfold PrimitiveToConserved.body
  simp only [AthenaArray.set_other_cell _ _ _ _ _ _ _ _ _ _ h]

theorem PrimitiveToConserved_body_local (prim : AthenaArray K) (igm1 : K)
    (k j i : Int) (cons : AthenaArray K) :
    (fun n => PrimitiveToConserved.body prim igm1 k j i cons n k j i)
      = fun n => PrimitiveToConserved.body prim igm1 k j i
          (fun m _ _ _ => cons m k j i) n k j i := by
  unfold PrimitiveToConserved.body
  simp only [AthenaArray.set_same_cell]

/-- Inside the range the sweep acts at a cell as one run of the loop body on the input
array. -/
theorem PrimitiveToConserved_cell_in (eos : EquationOfState K) (prim cons : AthenaArray K)
    (il iu jl ju kl ku k j i : Int)
    (h : (kl ≤ k ∧ k ≤ ku) ∧ (jl ≤ j ∧ j ≤ ju) ∧ (il ≤ i ∧ i ≤ iu)) (n : Nat) :
    PrimitiveToConserved eos prim cons il iu jl ju kl ku n k j i
      = PrimitiveToConserved.body prim (1.0 / (eos.GetGamma - 1.0)) k j i cons n k j i := by
  unfold PrimitiveToConserved
  have key := tripleLoop_get (fun (s : AthenaArray K) => fun n => s n k j i)
    (fun k j i s => PrimitiveToConserved.body prim (1.0 / (eos.GetGamma - 1.0)) k j i s)
    (fun v => fun n => PrimitiveToConserved.body prim (1.0 / (eos.GetGamma - 1.0)) k j i
      (fun m _ _ _ => v m) n k j i) k j i
    (fun s => PrimitiveToConserved_body_local prim _ k j i s)
    (fun k' j' i' s hne => PrimitiveToConserved_body_frame prim _ k' j' i' k j i s hne)
    il iu jl ju kl ku cons
  rw [if_pos h] at key
  have key2 := congrFun key n
  rw [key2]
  exact (congrFun (PrimitiveToConserved_body_local prim _ k j i cons) n).symm

/-- Outside the range the sweep leaves a cell as it was. -/
theorem PrimitiveToConserved_cell_out (eos : EquationOfState K) (prim cons : AthenaArray K)
    (il iu jl ju kl ku k j i : Int)
    (h : ¬ ((kl ≤ k ∧ k ≤ ku) ∧ (jl ≤ j ∧ j ≤ ju) ∧ (il ≤ i ∧ i ≤ iu))) (n : Nat) :
    PrimitiveToConserved eos prim cons il iu jl ju kl ku n k j i = cons n k j i := by
  unfold PrimitiveToConserved
  have key := tripleLoop_get (fun (s : AthenaArray K) => fun n => s n k j i)
    (fun k j i s => PrimitiveToConserved.body prim (1.0 / (eos.GetGamma - 1.0)) k j i s)
    (fun v => fun n => PrimitiveToConserved.body prim (1.0 / (eos.GetGamma - 1.0)) k j i
      (fun m _ _ _ => v m) n k j i) k j i
    (fun s => PrimitiveToConserved_body_local prim _ k j i s)
    (fun k' j' i' s hne => PrimitiveToConserved_body_frame prim _ k' j' i' k j i s hne)
    il iu jl ju kl ku cons
  rw [if_neg h] at key
  exact congrFun key n

/-- The values the sweep of `PrimitiveToConserved` leaves at a cell of the range. -/
theorem PrimitiveToConserved_values (eos : EquationOfState K) (prim cons : AthenaArray K)
    (il iu jl ju kl ku k j i : Int)
    (h : (kl ≤ k ∧ k ≤ ku) ∧ (jl ≤ j ∧ j ≤ ju) ∧ (il ≤ i ∧ i ≤ iu)) :
    PrimitiveToConserved eos prim cons il iu jl ju kl ku IDN k j i = prim IDN k j i
    ∧ PrimitiveToConserved eos prim cons il iu jl ju kl ku IM1 k j i
        = prim IVX k j i * prim IDN k j i
    ∧ PrimitiveToConserved eos prim cons il iu jl ju kl ku IM2 k j i
        = prim IVY k j i * prim IDN k j i
    ∧ PrimitiveToConserved eos prim cons il iu jl ju kl ku IM3 k j i
        = prim IVZ k j i * prim IDN k j i
    ∧ PrimitiveToConserved eos prim cons il iu jl ju kl ku IEN k j i
        = prim IPR k j i * (1.0 / (eos.gamma_ - 1.0))
          + 0.5 * prim IDN k j i
            * (SQR (prim IVX k j i) + SQR (prim IVY k j i) + SQR (prim IVZ k j i))
    ∧ ∀ n, NHYDRO ≤ n →
        PrimitiveToConserved eos prim cons il iu jl ju kl ku n k j i = cons n k j i := by
  have hc := PrimitiveToConserved_cell_in eos prim cons il iu jl ju kl ku k j i h
  refine ⟨?_, ?_, ?_, ?_, ?_, ?_⟩
  · rw [hc]
    simp [PrimitiveToConserved.body, AthenaArray.set_same_cell]
  · rw [hc]
    simp [PrimitiveToConserved.body, AthenaArray.set_same_cell]
  · rw [hc]
    simp [PrimitiveToConserved.body, AthenaArray.set_same_cell]
  · rw [hc]
    simp [PrimitiveToConserved.body, AthenaArray.set_same_cell]
  · rw [hc]
    simp [PrimitiveToConserved.body, AthenaArray.set_same_cell, EquationOfState.GetGamma]
  · intro n hn
    rw [hc]
    have hn5 : 5 ≤ n := hn
    have h0 : n ≠ 0 := by omega
    have h1 : n ≠ 1 := by omega
    have h2 : n ≠ 2 := by omega
    have h3 : n ≠ 3 := by omega
    have h4 : n ≠ 4 := by omega
    simp [PrimitiveToConserved.body, AthenaArray.set_same_cell, h0, h1, h2, h3, h4]

/-! ## Arithmetic of the floors -/

theorem lit_one : (1.0 : K) = 1 := by norm_num

theorem lit_half : (0.5 : K) = 1 / 2 := by norm_num

theorem floor_eq_max (x f : K) : (if x > f then x else f) = max x f := by
  by_cases h : x > f
  · rw [if_pos h, max_eq_left (le_of_lt h)]
  · rw [if_neg h, max_eq_right (le_of_not_lt h)]

theorem floor_eq_self (x f : K) (h : f ≤ x) : (if x > f then x else f) = x := by
  rw [floor_eq_max, max_eq_left h]

/-! ## Binary64 rounding at the values used -/

/-- C1: round trip W -> U -> W.  For `gamma ≠ 1`, `density_floor > 0` and a primitive cell of
the range with `rho ≥ density_floor` and `p ≥ pressure_floor`, `PrimitiveToConserved` followed
by `ConservedToPrimitive` writes back exactly the primitive cell it started from (whatever
array receives the result), and `ConservedToPrimitive` leaves the conserved cell it was given
unchanged. -/
theorem C1_roundtrip_prim_cons_prim (eos : EquationOfState K)
    (prim cons prim0 : AthenaArray K) (il iu jl ju kl ku k j i : Int)
    (hγ : eos.gamma_ ≠ 1) (hdf : 0 < eos.density_floor_)
    (hrange : (kl ≤ k ∧ k ≤ ku) ∧ (jl ≤ j ∧ j ≤ ju) ∧ (il ≤ i ∧ i ≤ iu))
    (hρ : eos.density_floor_ ≤ prim IDN k j i)
    (hp : eos.pressure_floor_ ≤ prim IPR k j i) :
    (∀ n, n < NHYDRO →
      (ConservedToPrimitive eos (PrimitiveToConserved eos prim cons il iu jl ju kl ku) prim0
        il iu jl ju kl ku).prim n k j i = prim n k j i)
    ∧ (∀ n,
      (ConservedToPrimitive eos (PrimitiveToConserved eos prim cons il iu jl ju kl ku) prim0
        il iu jl ju kl ku).cons n k j i
        = PrimitiveToConserved eos prim cons il iu jl ju kl ku n k j i) := by
  obtain ⟨u0, u1, u2, u3, u4, -⟩ :=
    PrimitiveToConserved_values eos prim cons il iu jl ju kl ku k j i hrange
  obtain ⟨⟨c0, c4, cn⟩, w0, w1, w2, w3, w4, -⟩ :=
    ConservedToPrimitive_values eos (PrimitiveToConserved eos prim cons il iu jl ju kl ku)
      prim0 il iu jl ju kl ku k j i hrange _ _ _ rfl rfl rfl
  have hg : eos.gamma_ - 1 ≠ 0 := sub_ne_zero.mpr hγ
  have hd0 : prim IDN k j i ≠ 0 := ne_of_gt (lt_of_lt_of_le hdf hρ)
  rw [u0, floor_eq_self _ _ hρ] at c0 w0 w1 w2 w3
  -- the candidate pressure is the pressure of the primitive cell
  have hpc : (eos.gamma_ - 1.0)
      * (PrimitiveToConserved eos prim cons il iu jl ju kl ku IEN k j i
        - 0.5 * (1.0 / (if PrimitiveToConserved eos prim cons il iu jl ju kl ku IDN k j i
              > eos.density_floor_
            then PrimitiveToConserved eos prim cons il iu jl ju kl ku IDN k j i
            else eos.density_floor_))
          * (SQR (PrimitiveToConserved eos prim cons il iu jl ju kl ku IM1 k j i)
            + SQR (PrimitiveToConserved eos prim cons il iu jl ju kl ku IM2 k j i)
            + SQR (PrimitiveToConserved eos prim cons il iu jl ju kl ku IM3 k j i)))
      = prim IPR k j i := by
    rw [u0, u1, u2, u3, u4, floor_eq_self _ _ hρ]
    simp only [lit_one, lit_half, SQR]
    field_simp
    ring
  rw [hpc] at c4 w4
  rw [floor_eq_self _ _ hp] at w4
  have hE : (if prim IPR k j i > eos.pressure_floor_
      then PrimitiveToConserved eos prim cons il iu jl ju kl ku IEN k j i
      else eos.pressure_floor_ / (eos.gamma_ - 1.0)
        + 0.5 * (1.0 / (if PrimitiveToConserved eos prim cons il iu jl ju kl ku IDN k j i
              > eos.density_floor_
            then PrimitiveToConserved eos prim cons il iu jl ju kl ku IDN k j i
            else eos.density_floor_))
          * (SQR (PrimitiveToConserved eos prim cons il iu jl ju kl ku IM1 k j i)
            + SQR (PrimitiveToConserved eos prim cons il iu jl ju kl ku IM2 k j i)
            + SQR (PrimitiveToConserved eos prim cons il iu jl ju kl ku IM3 k j i)))
      = PrimitiveToConserved eos prim cons il iu jl ju kl ku IEN k j i := by
    by_cases hgt : prim IPR k j i > eos.pressure_floor_
    · rw [if_pos hgt]
    · rw [if_neg hgt]
      have hpe : prim IPR k j i = eos.pressure_floor_ := le_antisymm (le_of_not_lt hgt) hp
      rw [u0, u1, u2, u3, u4, floor_eq_self _ _ hρ, ← hpe]
      simp only [lit_one, lit_half, SQR]
      field_simp
      ring
  rw [hE] at c4
  constructor
  · intro n hn
    have hn5 : n < 5 := hn
    interval_cases n
    · exact w0
    · rw [w1, u1, lit_one]
      field_simp
    · rw [w2, u2, lit_one]
      field_simp
    · rw [w3, u3, lit_one]
      field_simp
    · exact w4
  · intro n
    by_cases h0 : n = IDN
    · rw [h0, c0, u0]
    · by_cases h4 : n = IEN
      · rw [h4, c4]
      · exact cn n h0 h4

/-- C1 at `demoEos`, `demoPrim`, the range `[0,1]^3` and the cell `(1,0,1)`. -/
theorem C1_roundtrip_prim_cons_prim_witness :
    (∀ n, n < NHYDRO →
      (ConservedToPrimitive demoEos (PrimitiveToConserved demoEos demoPrim zeroArray 0 1 0 1 0 1)
        zeroArray 0 1 0 1 0 1).prim n 1 0 1 = demoPrim n 1 0 1)
    ∧ (∀ n,
      (ConservedToPrimitive demoEos (PrimitiveToConserved demoEos demoPrim zeroArray 0 1 0 1 0 1)
        zeroArray 0 1 0 1 0 1).cons n 1 0 1
        = PrimitiveToConserved demoEos demoPrim zeroArray 0 1 0 1 0 1 n 1 0 1) :=
  C1_roundtrip_prim_cons_prim demoEos demoPrim zeroArray zeroArray 0 1 0 1 0 1 1 0 1
    (by norm_num [demoEos]) (by norm_num [demoEos]) (by decide)
    (by norm_num [demoEos, demoPrim]) (by norm_num [demoEos, demoPrim])

/-- C2: round trip U -> W -> U off the floor.  For `gamma > 1`, `density_floor > 0` and a
conserved cell of the range with `rho > density_floor` and candidate pressure
`(gamma-1)*(E - (m1^2+m2^2+m3^2)/(2*rho)) > pressure_floor`, `ConservedToPrimitive` leaves the
conserved cell unchanged, and `PrimitiveToConserved` applied to the primitive array it produced
writes exactly that conserved cell (whatever array receives the result). -/
theorem C2_roundtrip_cons_prim_cons (eos : EquationOfState K)
    (cons prim cons0 : AthenaArray K) (il iu jl ju kl ku k j i : Int)
    (hγ : 1 < eos.gamma_) (hdf : 0 < eos.density_floor_)
    (hrange : (kl ≤ k ∧ k ≤ ku) ∧ (jl ≤ j ∧ j ≤ ju) ∧ (il ≤ i ∧ i ≤ iu))
    (hρ : eos.density_floor_ < cons IDN k j i)
    (hp : eos.pressure_floor_ < (eos.gamma_ - 1)
      * (cons IEN k j i
        - ((cons IM1 k j i) ^ 2 + (cons IM2 k j i) ^ 2 + (cons IM3 k j i) ^ 2)
          / (2 * cons IDN k j i))) :
    (∀ n, (ConservedToPrimitive eos cons prim il iu jl ju kl ku).cons n k j i = cons n k j i)
    ∧ (∀ n, n < NHYDRO →
      PrimitiveToConserved eos (ConservedToPrimitive eos cons prim il iu jl ju kl ku).prim cons0
        il iu jl ju kl ku n k j i = cons n k j i) := by
  have hg : eos.gamma_ - 1 ≠ 0 := ne_of_gt (sub_pos.mpr hγ)
  have hd0 : cons IDN k j i ≠ 0 := ne_of_gt (lt_trans hdf hρ)
  obtain ⟨⟨c0, c4, cn⟩, w0, w1, w2, w3, w4, -⟩ :=
    ConservedToPrimitive_values eos cons prim il iu jl ju kl ku k j i hrange
      (cons IDN k j i)
      (((cons IM1 k j i) ^ 2 + (cons IM2 k j i) ^ 2 + (cons IM3 k j i) ^ 2)
        / (2 * cons IDN k j i))
      ((eos.gamma_ - 1) * (cons IEN k j i
        - ((cons IM1 k j i) ^ 2 + (cons IM2 k j i) ^ 2 + (cons IM3 k j i) ^ 2)
          / (2 * cons IDN k j i)))
      (if_pos hρ).symm
      (by simp only [lit_one, lit_half, SQR]; field_simp; ring)
      (by rw [lit_one])
  rw [if_pos hp] at c4 w4
  obtain ⟨u0, u1, u2, u3, u4, -⟩ :=
    PrimitiveToConserved_values eos (ConservedToPrimitive eos cons prim il iu jl ju kl ku).prim
      cons0 il iu jl ju kl ku k j i hrange
  constructor
  · intro n
    by_cases h0 : n = IDN
    · rw [h0, c0]
    · by_cases h4 : n = IEN
      · rw [h4, c4]
      · exact cn n h0 h4
  · intro n hn
    have hn5 : n < 5 := hn
    interval_cases n
    · rw [u0, w0]
    · rw [u1, w1, w0, lit_one]
      field_simp
    · rw [u2, w2, w0, lit_one]
      field_simp
    · rw [u3, w3, w0, lit_one]
      field_simp
    · rw [u4, w4, w1, w2, w3, w0]
      simp only [lit_one, lit_half, SQR]
      field_simp
      ring

/-- C2 at `demoEos`, `demoCons` and the one-cell range at the origin. -/
theorem C2_roundtrip_cons_prim_cons_witness :
    (∀ n, (ConservedToPrimitive demoEos demoCons zeroArray 0 0 0 0 0 0).cons n 0 0 0
        = demoCons n 0 0 0)
    ∧ (∀ n, n < NHYDRO →
      PrimitiveToConserved demoEos
        (ConservedToPrimitive demoEos demoCons zeroArray 0 0 0 0 0 0).prim zeroArray
        0 0 0 0 0 0 n 0 0 0 = demoCons n 0 0 0) :=
  C2_roundtrip_cons_prim_cons demoEos demoCons zeroArray zeroArray 0 0 0 0 0 0 0 0 0
    (by norm_num [demoEos]) (by norm_num [demoEos]) (by decide)
    (by norm_num [demoEos, demoCons]) (by norm_num [demoEos, demoCons])

/-- C3: positivity after `ConservedToPrimitive`.  For every configuration and every input, at
every cell of the range the output conserved density is at least `density_floor`, the output
primitive density equals it, the output primitive pressure is at least `pressure_floor`, each
velocity is the momentum times the reciprocal of the output conserved density, and that
divisor is nonzero as soon as `density_floor > 0`. -/
theorem C3_positivity (eos : EquationOfState K) (cons prim : AthenaArray K)
    (il iu jl ju kl ku k j i : Int)
    (hrange : (kl ≤ k ∧ k ≤ ku) ∧ (jl ≤ j ∧ j ≤ ju) ∧ (il ≤ i ∧ i ≤ iu)) :
    eos.density_floor_ ≤ (ConservedToPrimitive eos cons prim il iu jl ju kl ku).cons IDN k j i
    ∧ (ConservedToPrimitive eos cons prim il iu jl ju kl ku).prim IDN k j i
        = (ConservedToPrimitive eos cons prim il iu jl ju kl ku).cons IDN k j i
    ∧ eos.pressure_floor_
        ≤ (ConservedToPrimitive eos cons prim il iu jl ju kl ku).prim IPR k j i
    ∧ (ConservedToPrimitive eos cons prim il iu jl ju kl ku).prim IVX k j i
        = cons IM1 k j i
          * (1 / (ConservedToPrimitive eos cons prim il iu jl ju kl ku).cons IDN k j i)
    ∧ (ConservedToPrimitive eos cons prim il iu jl ju kl ku).prim IVY k j i
        = cons IM2 k j i
          * (1 / (ConservedToPrimitive eos cons prim il iu jl ju kl ku).cons IDN k j i)
    ∧ (ConservedToPrimitive eos cons prim il iu jl ju kl ku).prim IVZ k j i
        = cons IM3 k j i
          * (1 / (ConservedToPrimitive eos cons prim il iu jl ju kl ku).cons IDN k j i)
    ∧ (0 < eos.density_floor_ →
        (ConservedToPrimitive eos cons prim il iu jl ju kl ku).cons IDN k j i ≠ 0) := by
  obtain ⟨⟨c0, -, -⟩, w0, w1, w2, w3, w4, -⟩ :=
    ConservedToPrimitive_values eos cons prim il iu jl ju kl ku k j i hrange _ _ _ rfl rfl rfl
  rw [floor_eq_max] at c0 w0 w1 w2 w3 w4
  rw [floor_eq_max] at w4
  rw [lit_one] at w1 w2 w3
  have hge : eos.density_floor_
      ≤ (ConservedToPrimitive eos cons prim il iu jl ju kl ku).cons IDN k j i := by
    rw [c0]
    exact le_max_right _ _
  refine ⟨hge, ?_, ?_, ?_, ?_, ?_, ?_⟩
  · rw [w0, c0]
  · rw [w4]
    exact le_max_right _ _
  · rw [w1, c0]
  · rw [w2, c0]
  · rw [w3, c0]
  · intro hpos
    exact ne_of_gt (lt_of_lt_of_le hpos hge)

/-- C3 at `demoEos` and `lowCons`, whose density `0` is raised to the floor `1/100`. -/
theorem C3_positivity_witness :
    (1 : ℚ) / 100 ≤ (ConservedToPrimitive demoEos lowCons zeroArray 0 0 0 0 0 0).cons IDN 0 0 0
    ∧ (1 : ℚ) / 100
        ≤ (ConservedToPrimitive demoEos lowCons zeroArray 0 0 0 0 0 0).prim IPR 0 0 0 :=
  ⟨(C3_positivity demoEos lowCons zeroArray 0 0 0 0 0 0 0 0 0 (by decide)).1,
    (C3_positivity demoEos lowCons zeroArray 0 0 0 0 0 0 0 0 0 (by decide)).2.2.1⟩

/-- C4: energy-relation consistency after `ConservedToPrimitive`.  For `gamma ≠ 1`,
`density_floor > 0` and every input, floor triggered or not, the outputs at a cell of the range
satisfy `E = p/(gamma-1) + (1/2)*rho*(v1^2+v2^2+v3^2)` and `m_i = v_i*rho`; and
`PrimitiveToConserved` applied to the output primitive array writes exactly the output
conserved cell. -/
theorem C4_energy_relation (eos : EquationOfState K) (cons prim cons0 : AthenaArray K)
    (il iu jl ju kl ku k j i : Int)
    (hγ : eos.gamma_ ≠ 1) (hdf : 0 < eos.density_floor_)
    (hrange : (kl ≤ k ∧ k ≤ ku) ∧ (jl ≤ j ∧ j ≤ ju) ∧ (il ≤ i ∧ i ≤ iu)) :
    (ConservedToPrimitive eos cons prim il iu jl ju kl ku).cons IEN k j i
      = (ConservedToPrimitive eos cons prim il iu jl ju kl ku).prim IPR k j i
          / (eos.gamma_ - 1)
        + 1 / 2 * (ConservedToPrimitive eos cons prim il iu jl ju kl ku).prim IDN k j i
          * (((ConservedToPrimitive eos cons prim il iu jl ju kl ku).prim IVX k j i) ^ 2
            + ((ConservedToPrimitive eos cons prim il iu jl ju kl ku).prim IVY k j i) ^ 2
            + ((ConservedToPrimitive eos cons prim il iu jl ju kl ku).prim IVZ k j i) ^ 2)
    ∧ (ConservedToPrimitive eos cons prim il iu jl ju kl ku).cons IM1 k j i
        = (ConservedToPrimitive eos cons prim il iu jl ju kl ku).prim IVX k j i
          * (ConservedToPrimitive eos cons prim il iu jl ju kl ku).prim IDN k j i
    ∧ (ConservedToPrimitive eos cons prim il iu jl ju kl ku).cons IM2 k j i
        = (ConservedToPrimitive eos cons prim il iu jl ju kl ku).prim IVY k j i
          * (ConservedToPrimitive eos cons prim il iu jl ju kl ku).prim IDN k j i
    ∧ (ConservedToPrimitive eos cons prim il iu jl ju kl ku).cons IM3 k j i
        = (ConservedToPrimitive eos cons prim il iu jl ju kl ku).prim IVZ k j i
          * (ConservedToPrimitive eos cons prim il iu jl ju kl ku).prim IDN k j i
    ∧ (∀ n, n < NHYDRO →
        PrimitiveToConserved eos (ConservedToPrimitive eos cons prim il iu jl ju kl ku).prim
          cons0 il iu jl ju kl ku n k j i
          = (ConservedToPrimitive eos cons prim il iu jl ju kl ku).cons n k j i) := by
  have hg : eos.gamma_ - 1 ≠ 0 := sub_ne_zero.mpr hγ
  obtain ⟨⟨c0, c4, cn⟩, w0, w1, w2, w3, w4, -⟩ :=
    ConservedToPrimitive_values eos cons prim il iu jl ju kl ku k j i hrange
      (max (cons IDN k j i) eos.density_floor_) _ _ (floor_eq_max _ _).symm rfl rfl
  have hd0 : max (cons IDN k j i) eos.density_floor_ ≠ 0 :=
    ne_of_gt (lt_of_lt_of_le hdf (le_max_right _ _))
  have c1 := cn IM1 (by decide) (by decide)
  have c2 := cn IM2 (by decide) (by decide)
  have c3 := cn IM3 (by decide) (by decide)
  -- the energy relation among the written values
  have hE : (ConservedToPrimitive eos cons prim il iu jl ju kl ku).cons IEN k j i
      = (ConservedToPrimitive eos cons prim il iu jl ju kl ku).prim IPR k j i
          / (eos.gamma_ - 1)
        + 1 / 2 * (ConservedToPrimitive eos cons prim il iu jl ju kl ku).prim IDN k j i
          * (((ConservedToPrimitive eos cons prim il iu jl ju kl ku).prim IVX k j i) ^ 2
            + ((ConservedToPrimitive eos cons prim il iu jl ju kl ku).prim IVY k j i) ^ 2
            + ((ConservedToPrimitive eos cons prim il iu jl ju kl ku).prim IVZ k j i) ^ 2) := by
    rw [c4, w4, w0, w1, w2, w3]
    simp only [lit_one, lit_half, SQR]
    split_ifs
    · field_simp
      ring
    · field_simp
      ring
  have hm1 : (ConservedToPrimitive eos cons prim il iu jl ju kl ku).cons IM1 k j i
      = (ConservedToPrimitive eos cons prim il iu jl ju kl ku).prim IVX k j i
        * (ConservedToPrimitive eos cons prim il iu jl ju kl ku).prim IDN k j i := by
    rw [c1, w1, w0, lit_one]
    field_simp
  have hm2 : (ConservedToPrimitive eos cons prim il iu jl ju kl ku).cons IM2 k j i
      = (ConservedToPrimitive eos cons prim il iu jl ju kl ku).prim IVY k j i
        * (ConservedToPrimitive eos cons prim il iu jl ju kl ku).prim IDN k j i := by
    rw [c2, w2, w0, lit_one]
    field_simp
  have hm3 : (ConservedToPrimitive eos cons prim il iu jl ju kl ku).cons IM3 k j i
      = (ConservedToPrimitive eos cons prim il iu jl ju kl ku).prim IVZ k j i
        * (ConservedToPrimitive eos cons prim il iu jl ju kl ku).prim IDN k j i := by
    rw [c3, w3, w0, lit_one]
    field_simp
  refine ⟨hE, hm1, hm2, hm3, ?_⟩
  obtain ⟨u0, u1, u2, u3, u4, -⟩ :=
    PrimitiveToConserved_values eos (ConservedToPrimitive eos cons prim il iu jl ju kl ku).prim
      cons0 il iu jl ju kl ku k j i hrange
  intro n hn
  have hn5 : n < 5 := hn
  interval_cases n
  · rw [u0, w0, c0]
  · rw [u1, hm1]
  · rw [u2, hm2]
  · rw [u3, hm3]
  · rw [u4, hE]
    simp only [lit_one, lit_half, SQR]
    ring

/-- C4 at `demoEos` and `lowCons`: the conversion back reproduces the corrected cell. -/
theorem C4_energy_relation_witness :
    PrimitiveToConserved demoEos
        (ConservedToPrimitive demoEos lowCons zeroArray 0 0 0 0 0 0).prim zeroArray
        0 0 0 0 0 0 IEN 0 0 0
      = (ConservedToPrimitive demoEos lowCons zeroArray 0 0 0 0 0 0).cons IEN 0 0 0 :=
  (C4_energy_relation demoEos lowCons zeroArray zeroArray 0 0 0 0 0 0 0 0 0
    (by norm_num [demoEos]) (by norm_num [demoEos]) (by decide)).2.2.2.2 IEN (by decide)

/-- C6: density-floor locality in `ConservedToPrimitive`.  The conserved momentum of every
cell, in the range or not, is left as it was.  At a cell of the range whose density is at most
`density_floor`, the output conserved and primitive densities are `density_floor`, each output
velocity is the input momentum divided by `density_floor`, and the conserved energy keeps its
input value whenever the candidate pressure computed with the floored density exceeds
`pressure_floor`. -/
theorem C6_density_floor_locality (eos : EquationOfState K) (cons prim : AthenaArray K)
    (il iu jl ju kl ku k j i : Int) :
    ((ConservedToPrimitive eos cons prim il iu jl ju kl ku).cons IM1 k j i = cons IM1 k j i
      ∧ (ConservedToPrimitive eos cons prim il iu jl ju kl ku).cons IM2 k j i = cons IM2 k j i
      ∧ (ConservedToPrimitive eos cons prim il iu jl ju kl ku).cons IM3 k j i = cons IM3 k j i)
    ∧ ((kl ≤ k ∧ k ≤ ku) ∧ (jl ≤ j ∧ j ≤ ju) ∧ (il ≤ i ∧ i ≤ iu) →
        cons IDN k j i ≤ eos.density_floor_ →
        (ConservedToPrimitive eos cons prim il iu jl ju kl ku).cons IDN k j i
          = eos.density_floor_
        ∧ (ConservedToPrimitive eos cons prim il iu jl ju kl ku).prim IDN k j i
          = eos.density_floor_
        ∧ (ConservedToPrimitive eos cons prim il iu jl ju kl ku).prim IVX k j i
          = cons IM1 k j i / eos.density_floor_
        ∧ (ConservedToPrimitive eos cons prim il iu jl ju kl ku).prim IVY k j i
          = cons IM2 k j i / eos.density_floor_
        ∧ (ConservedToPrimitive eos cons prim il iu jl ju kl ku).prim IVZ k j i
          = cons IM3 k j i / eos.density_floor_
        ∧ (eos.pressure_floor_ < (eos.gamma_ - 1)
            * (cons IEN k j i
              - ((cons IM1 k j i) ^ 2 + (cons IM2 k j i) ^ 2 + (cons IM3 k j i) ^ 2)
                / (2 * eos.density_floor_)) →
            (ConservedToPrimitive eos cons prim il iu jl ju kl ku).cons IEN k j i
              = cons IEN k j i)) := by
  constructor
  · by_cases hrange : (kl ≤ k ∧ k ≤ ku) ∧ (jl ≤ j ∧ j ≤ ju) ∧ (il ≤ i ∧ i ≤ iu)
    · obtain ⟨⟨-, -, cn⟩, -⟩ :=
        ConservedToPrimitive_values eos cons prim il iu jl ju kl ku k j i hrange
          _ _ _ rfl rfl rfl
      exact ⟨cn IM1 (by decide) (by decide), cn IM2 (by decide) (by decide),
        cn IM3 (by decide) (by decide)⟩
    · have hout := ConservedToPrimitive_cell_out eos cons prim il iu jl ju kl ku k j i hrange
      have hcons : ∀ n,
          (ConservedToPrimitive eos cons prim il iu jl ju kl ku).cons n k j i = cons n k j i :=
        fun n => congrFun (congrArg Prod.fst hout) n
      exact ⟨hcons IM1, hcons IM2, hcons IM3⟩
  · intro hrange hlow
    obtain ⟨⟨c0, c4, -⟩, w0, w1, w2, w3, -, -⟩ :=
      ConservedToPrimitive_values eos cons prim il iu jl ju kl ku k j i hrange
        eos.density_floor_
        (((cons IM1 k j i) ^ 2 + (cons IM2 k j i) ^ 2 + (cons IM3 k j i) ^ 2)
          / (2 * eos.density_floor_))
        ((eos.gamma_ - 1) * (cons IEN k j i
          - ((cons IM1 k j i) ^ 2 + (cons IM2 k j i) ^ 2 + (cons IM3 k j i) ^ 2)
            / (2 * eos.density_floor_)))
        (if_neg (not_lt.mpr hlow)).symm
        (by simp only [lit_one, lit_half, SQR]; ring)
        (by rw [lit_one])
    refine ⟨c0, w0, ?_, ?_, ?_, ?_⟩
    · rw [w1, lit_one, mul_one_div]
    · rw [w2, lit_one, mul_one_div]
    · rw [w3, lit_one, mul_one_div]
    · intro hgt
      rw [c4, if_pos hgt]

/-- C6 at `demoEos` and `lowCons`: the density `0` becomes `1/100` and the velocity is the
momentum divided by the floor. -/
theorem C6_density_floor_locality_witness :
    (ConservedToPrimitive demoEos lowCons zeroArray 0 0 0 0 0 0).cons IDN 0 0 0
        = demoEos.density_floor_
    ∧ (ConservedToPrimitive demoEos lowCons zeroArray 0 0 0 0 0 0).prim IVX 0 0 0
        = lowCons IM1 0 0 0 / demoEos.density_floor_ :=
  ⟨((C6_density_floor_locality demoEos lowCons zeroArray 0 0 0 0 0 0 0 0 0).2 (by decide)
      (by norm_num [demoEos, lowCons])).1,
    ((C6_density_floor_locality demoEos lowCons zeroArray 0 0 0 0 0 0 0 0 0).2 (by decide)
      (by norm_num [demoEos, lowCons])).2.2.1⟩

/-- C8: `PrimitiveToConserved` is an unconditional algebraic map.  For `gamma ≠ 1` and every
primitive cell of the range, whatever its density and pressure and whatever the floors, it
writes `rho_cons = rho`, `m_i = v_i*rho` and `E = p/(gamma-1) + (1/2)*rho*(v1^2+v2^2+v3^2)`;
the result does not depend on the floors of the configuration. -/
theorem C8_prim_to_cons_formula (eos : EquationOfState K) (prim cons : AthenaArray K)
    (il iu jl ju kl ku k j i : Int) (hγ : eos.gamma_ ≠ 1)
    (hrange : (kl ≤ k ∧ k ≤ ku) ∧ (jl ≤ j ∧ j ≤ ju) ∧ (il ≤ i ∧ i ≤ iu)) :
    PrimitiveToConserved eos prim cons il iu jl ju kl ku IDN k j i = prim IDN k j i
    ∧ PrimitiveToConserved eos prim cons il iu jl ju kl ku IM1 k j i
        = prim IVX k j i * prim IDN k j i
    ∧ PrimitiveToConserved eos prim cons il iu jl ju kl ku IM2 k j i
        = prim IVY k j i * prim IDN k j i
    ∧ PrimitiveToConserved eos prim cons il iu jl ju kl ku IM3 k j i
        = prim IVZ k j i * prim IDN k j i
    ∧ PrimitiveToConserved eos prim cons il iu jl ju kl ku IEN k j i
        = prim IPR k j i / (eos.gamma_ - 1)
          + 1 / 2 * prim IDN k j i
            * ((prim IVX k j i) ^ 2 + (prim IVY k j i) ^ 2 + (prim IVZ k j i) ^ 2)
    ∧ (∀ dfloor pfloor sfloor : K,
        PrimitiveToConserved
          { gamma_ := eos.gamma_, density_floor_ := dfloor, pressure_floor_ := pfloor,
            scalar_floor_ := sfloor } prim cons il iu jl ju kl ku
          = PrimitiveToConserved eos prim cons il iu jl ju kl ku) := by
  have _hg : eos.gamma_ - 1 ≠ 0 := sub_ne_zero.mpr hγ
  obtain ⟨u0, u1, u2, u3, u4, -⟩ :=
    PrimitiveToConserved_values eos prim cons il iu jl ju kl ku k j i hrange
  refine ⟨u0, u1, u2, u3, ?_, ?_⟩
  · rw [u4]
    simp only [lit_one, lit_half, SQR]
    ring
  · intro dfloor pfloor sfloor
    rfl

/-- C8 at the scenario `gamma = 1.4`, primitive `(rho = 1, v = (1,0,0), p = 1)`: the conserved
cell is `(rho = 1, m = (1,0,0), E = 3)`. -/
theorem C8_prim_to_cons_formula_witness :
    PrimitiveToConserved demoEos demoPrim zeroArray 0 0 0 0 0 0 IDN 0 0 0 = 1
    ∧ PrimitiveToConserved demoEos demoPrim zeroArray 0 0 0 0 0 0 IM1 0 0 0 = 1
    ∧ PrimitiveToConserved demoEos demoPrim zeroArray 0 0 0 0 0 0 IM2 0 0 0 = 0
    ∧ PrimitiveToConserved demoEos demoPrim zeroArray 0 0 0 0 0 0 IM3 0 0 0 = 0
    ∧ PrimitiveToConserved demoEos demoPrim zeroArray 0 0 0 0 0 0 IEN 0 0 0 = 3 := by
  obtain ⟨h0, h1, h2, h3, h4, -⟩ :=
    C8_prim_to_cons_formula demoEos demoPrim zeroArray 0 0 0 0 0 0 0 0 0
      (by norm_num [demoEos]) (by decide)
  rw [h0, h1, h2, h3, h4]
  norm_num [demoEos, demoPrim]

/-- C9: `ApplyPrimitiveFloors` is idempotent: applying it twice to an interface state leaves
the same primitive array as applying it once. -/
theorem C9_apply_primitive_floors_idempotent (eos : EquationOfState K) (prim : AthenaSlice K)
    (k j i : Int) :
    ApplyPrimitiveFloors eos (ApplyPrimitiveFloors eos prim k j i) k j i
      = ApplyPrimitiveFloors eos prim k j i := by
  funext n x
  unfold ApplyPrimitiveFloors AthenaSlice.set
  by_cases hx : x = i
  · subst hx
    by_cases h4 : n = 4
    · subst h4
      simp only [and_true, if_true, floor_eq_max]
      simp
    · by_cases h0 : n = 0
      · subst h0
        simp only [and_true, if_true, floor_eq_max]
        simp
      · simp [h0, h4]
  · simp [hx]

/-- C10: `ApplyPrimitiveFloors` clamps independently and touches nothing else.  The output
density is `max(rho, density_floor)`, the output pressure is `max(p, pressure_floor)`, each is
fixed by its own input field alone, the three velocities are unchanged, and so is every other
entry of the array. -/
theorem C10_apply_primitive_floors_frame (eos : EquationOfState K) (prim : AthenaSlice K)
    (k j i : Int) :
    ApplyPrimitiveFloors eos prim k j i IDN i = max (prim IDN i) eos.density_floor_
    ∧ ApplyPrimitiveFloors eos prim k j i IPR i = max (prim IPR i) eos.pressure_floor_
    ∧ (∀ prim2 : AthenaSlice K, prim2 IDN i = prim IDN i →
        ApplyPrimitiveFloors eos prim2 k j i IDN i = ApplyPrimitiveFloors eos prim k j i IDN i)
    ∧ (∀ prim2 : AthenaSlice K, prim2 IPR i = prim IPR i →
        ApplyPrimitiveFloors eos prim2 k j i IPR i = ApplyPrimitiveFloors eos prim k j i IPR i)
    ∧ ApplyPrimitiveFloors eos prim k j i IVX i = prim IVX i
    ∧ ApplyPrimitiveFloors eos prim k j i IVY i = prim IVY i
    ∧ ApplyPrimitiveFloors eos prim k j i IVZ i = prim IVZ i
    ∧ (∀ n x, ¬ (x = i ∧ (n = IDN ∨ n = IPR)) →
        ApplyPrimitiveFloors eos prim k j i n x = prim n x) := by
  have hd : ∀ q : AthenaSlice K,
      ApplyPrimitiveFloors eos q k j i IDN i = max (q IDN i) eos.density_floor_ := by
    intro q
    rw [← floor_eq_max]
    simp [ApplyPrimitiveFloors, AthenaSlice.set]
  have hp : ∀ q : AthenaSlice K,
      ApplyPrimitiveFloors eos q k j i IPR i = max (q IPR i) eos.pressure_floor_ := by
    intro q
    rw [← floor_eq_max]
    simp [ApplyPrimitiveFloors, AthenaSlice.set]
  refine ⟨hd prim, hp prim, ?_, ?_, ?_, ?_, ?_, ?_⟩
  · intro prim2 h
    rw [hd, hd, h]
  · intro prim2 h
    rw [hp, hp, h]
  · simp [ApplyPrimitiveFloors, AthenaSlice.set]
  · simp [ApplyPrimitiveFloors, AthenaSlice.set]
  · simp [ApplyPrimitiveFloors, AthenaSlice.set]
  · intro n x h
    unfold ApplyPrimitiveFloors AthenaSlice.set
    by_cases hx : x = i
    · have h0 : n ≠ 0 := fun h0 => h ⟨hx, Or.inl h0⟩
      have h4 : n ≠ 4 := fun h4 => h ⟨hx, Or.inr h4⟩
      simp [h0, h4]
    · simp [hx]

/-! ### The scenario with default floors -/

/-- The default floor `sqrt(1024 * float_min)` is at most `2^-58` when `float_min` is at most
`2^-126`, the smallest positive normal single-precision number. -/
theorem default_floor_le (float_min : ℝ) (hmin : float_min ≤ 1 / 2 ^ 126) :
    Real.sqrt (1024 * float_min) ≤ 1 / 2 ^ 58 := by
  have h1 : (1024 : ℝ) * float_min ≤ (1 / 2 ^ 58) ^ 2 := by
    have : (1024 : ℝ) * float_min ≤ 1024 * (1 / 2 ^ 126) :=
      mul_le_mul_of_nonneg_left hmin (by norm_num)
    calc (1024 : ℝ) * float_min ≤ 1024 * (1 / 2 ^ 126) := this
      _ = (1 / 2 ^ 58) ^ 2 := by norm_num
  calc Real.sqrt (1024 * float_min) ≤ Real.sqrt ((1 / 2 ^ 58) ^ 2) := Real.sqrt_le_sqrt h1
    _ = 1 / 2 ^ 58 := Real.sqrt_sq (by positivity)

/-- The scenario cell under any configuration with `gamma = 1.4` whose floors are below
`4e-11`: no floor is triggered. -/
theorem scenario_off_floor (eos : EquationOfState ℝ) (prim : AthenaArray ℝ)
    (hg : eos.gamma_ = 1.4) (hd : eos.density_floor_ < 4e-11)
    (hp : eos.pressure_floor_ < 4e-11) :
    (ConservedToPrimitive eos (scenarioCons ℝ) prim 0 0 0 0 0 0).prim IDN 0 0 0 = 1e-10
    ∧ (ConservedToPrimitive eos (scenarioCons ℝ) prim 0 0 0 0 0 0).prim IVX 0 0 0 = 0
    ∧ (ConservedToPrimitive eos (scenarioCons ℝ) prim 0 0 0 0 0 0).prim IVY 0 0 0 = 0
    ∧ (ConservedToPrimitive eos (scenarioCons ℝ) prim 0 0 0 0 0 0).prim IVZ 0 0 0 = 0
    ∧ (ConservedToPrimitive eos (scenarioCons ℝ) prim 0 0 0 0 0 0).prim IPR 0 0 0 = 4e-11
    ∧ (∀ n, (ConservedToPrimitive eos (scenarioCons ℝ) prim 0 0 0 0 0 0).cons n 0 0 0
        = scenarioCons ℝ n 0 0 0) := by
  have hρ : scenarioCons ℝ IDN 0 0 0 > eos.density_floor_ := by
    have : scenarioCons ℝ IDN 0 0 0 = 1e-10 := by simp [scenarioCons]
    rw [this]
    exact lt_trans hd (by norm_num)
  obtain ⟨⟨c0, c4, cn⟩, w0, w1, w2, w3, w4, -⟩ :=
    ConservedToPrimitive_values eos (scenarioCons ℝ) prim 0 0 0 0 0 0 0 0 0
      (by decide) (1e-10) 0 (4e-11)
      (by rw [if_pos hρ]; simp [scenarioCons])
      (by simp [scenarioCons, SQR])
      (by rw [hg]; simp [scenarioCons]; norm_num)
  rw [if_pos hp] at c4 w4
  refine ⟨w0, ?_, ?_, ?_, w4, ?_⟩
  · rw [w1]
    simp [scenarioCons]
  · rw [w2]
    simp [scenarioCons]
  · rw [w3]
    simp [scenarioCons]
  · intro n
    by_cases h0 : n = IDN
    · rw [h0, c0]
      simp [scenarioCons]
    · by_cases h4 : n = IEN
      · rw [h4, c4]
      · exact cn n h0 h4

/-- C7 (as stated, refuted): with `gamma = 1.4` and the default floors
`sqrt(1024 * float_min)` for the single-precision `float_min = 2^-126`, the conserved cell
`(rho = 1e-10, m = 0, E = 1e-10)` lies above both floors: after `ConservedToPrimitive` the
primitive density is not `density_floor`, the primitive pressure is not `pressure_floor`, and
the conserved energy is not `pressure_floor/(gamma-1)`. -/
theorem C7_counterexample :
    ∃ eos : EquationOfState ℝ,
      EquationOfState.ctor Real.sqrt (1 / 2 ^ 126) (scenarioInput ℝ) = some eos
      ∧ (ConservedToPrimitive eos (scenarioCons ℝ) (fun _ _ _ _ => 0) 0 0 0 0 0 0).prim
          IDN 0 0 0 ≠ eos.density_floor_
      ∧ (ConservedToPrimitive eos (scenarioCons ℝ) (fun _ _ _ _ => 0) 0 0 0 0 0 0).prim
          IPR 0 0 0 ≠ eos.pressure_floor_
      ∧ (ConservedToPrimitive eos (scenarioCons ℝ) (fun _ _ _ _ => 0) 0 0 0 0 0 0).cons
          IEN 0 0 0 ≠ eos.pressure_floor_ / (eos.gamma_ - 1) := by
  have hf : Real.sqrt (1024 * (1 / 2 ^ 126)) ≤ 1 / 2 ^ 58 := default_floor_le _ le_rfl
  have hsmall : (1 : ℝ) / 2 ^ 58 < 4e-11 := by norm_num
  have hlt : Real.sqrt (1024 * (1 / 2 ^ 126)) < 4e-11 := lt_of_le_of_lt hf hsmall
  refine ⟨{ gamma_ := 1.4
            density_floor_ := Real.sqrt (1024 * (1 / 2 ^ 126))
            pressure_floor_ := Real.sqrt (1024 * (1 / 2 ^ 126))
            scalar_floor_ := Real.sqrt (1024 * (1 / 2 ^ 126)) }, rfl, ?_⟩
  obtain ⟨w0, -, -, -, w4, c⟩ := scenario_off_floor
    { gamma_ := 1.4
      density_floor_ := Real.sqrt (1024 * (1 / 2 ^ 126))
      pressure_floor_ := Real.sqrt (1024 * (1 / 2 ^ 126))
      scalar_floor_ := Real.sqrt (1024 * (1 / 2 ^ 126)) }
    (fun _ _ _ _ => 0) rfl hlt hlt
  refine ⟨?_, ?_, ?_⟩
  · rw [w0]
    show (1e-10 : ℝ) ≠ Real.sqrt (1024 * (1 / 2 ^ 126))
    exact ne_of_gt (lt_trans hlt (by norm_num))
  · rw [w4]
    show (4e-11 : ℝ) ≠ Real.sqrt (1024 * (1 / 2 ^ 126))
    exact ne_of_gt hlt
  · rw [c IEN]
    show scenarioCons ℝ IEN 0 0 0 ≠ Real.sqrt (1024 * (1 / 2 ^ 126)) / ((1.4 : ℝ) - 1)
    have hE : scenarioCons ℝ IEN 0 0 0 = 1e-10 := by simp [scenarioCons]
    rw [hE]
    apply ne_of_gt
    have h58 : Real.sqrt (1024 * (1 / 2 ^ 126)) / ((1.4 : ℝ) - 1)
        ≤ (1 / 2 ^ 58) / ((1.4 : ℝ) - 1) :=
      div_le_div_of_nonneg_right hf (by norm_num)
    exact lt_of_le_of_lt h58 (by norm_num)

/-- C7 (amended): with `gamma = 1.4` and the default floors `sqrt(1024 * float_min)` for any
`float_min` up to `2^-126`, `ConservedToPrimitive` on the conserved cell
`(rho = 1e-10, m = 0, E = 1e-10)` triggers no floor: the primitive density is `1e-10`, the
velocity is zero, the primitive pressure is `(gamma-1)*E = 4e-11`, and the conserved cell is
unchanged. -/
theorem C7_default_floors_scenario (float_min : ℝ) (hmin : float_min ≤ 1 / 2 ^ 126)
    (eos : EquationOfState ℝ)
    (heos : EquationOfState.ctor Real.sqrt float_min (scenarioInput ℝ) = some eos)
    (prim : AthenaArray ℝ) :
    (ConservedToPrimitive eos (scenarioCons ℝ) prim 0 0 0 0 0 0).prim IDN 0 0 0 = 1e-10
    ∧ (ConservedToPrimitive eos (scenarioCons ℝ) prim 0 0 0 0 0 0).prim IVX 0 0 0 = 0
    ∧ (ConservedToPrimitive eos (scenarioCons ℝ) prim 0 0 0 0 0 0).prim IVY 0 0 0 = 0
    ∧ (ConservedToPrimitive eos (scenarioCons ℝ) prim 0 0 0 0 0 0).prim IVZ 0 0 0 = 0
    ∧ (ConservedToPrimitive eos (scenarioCons ℝ) prim 0 0 0 0 0 0).prim IPR 0 0 0 = 4e-11
    ∧ (∀ n, (ConservedToPrimitive eos (scenarioCons ℝ) prim 0 0 0 0 0 0).cons n 0 0 0
        = scenarioCons ℝ n 0 0 0) := by
  have hlt : Real.sqrt (1024 * float_min) < 4e-11 :=
    lt_of_le_of_lt (default_floor_le float_min hmin) (by norm_num)
  have he : eos = { gamma_ := 1.4
                    density_floor_ := Real.sqrt (1024 * float_min)
                    pressure_floor_ := Real.sqrt (1024 * float_min)
                    scalar_floor_ := Real.sqrt (1024 * float_min) } := by
    have h := heos
    simp only [EquationOfState.ctor, scenarioInput, GetOrAddReal, Option.getD_none,
      Option.some.injEq] at h
    exact h.symm
  subst he
  exact scenario_off_floor _ prim rfl hlt hlt

/-- C7 (amended), at the single-precision `float_min = 2^-126`. -/
theorem C7_default_floors_scenario_witness :
    (ConservedToPrimitive
        { gamma_ := 1.4
          density_floor_ := Real.sqrt (1024 * (1 / 2 ^ 126))
          pressure_floor_ := Real.sqrt (1024 * (1 / 2 ^ 126))
          scalar_floor_ := Real.sqrt (1024 * (1 / 2 ^ 126)) }
        (scenarioCons ℝ) (fun _ _ _ _ => 0) 0 0 0 0 0 0).prim IPR 0 0 0 = 4e-11 :=
  (C7_default_floors_scenario (1 / 2 ^ 126) le_rfl _ rfl (fun _ _ _ _ => 0)).2.2.2.2.1

/-! ### Sound speed -/

/-- C11: sound-speed formula.  `SoundSpeed` returns `sqrt(gamma * p / rho)` of the cell it is
given; the value is fixed by the density and pressure entries alone (not the velocities, not
the cell coordinates) and does not depend on the floors of the configuration; for
`gamma = 5/3`, `rho = 1`, `p = 1` it is `sqrt(5/3)`. -/
theorem C11_sound_speed_formula (sqrt : K → K) (eos : EquationOfState K) (prim : Nat → K)
    (k j i : Int) :
    SoundSpeed sqrt eos prim k j i = sqrt (eos.gamma_ * prim IPR / prim IDN)
    ∧ (∀ (prim2 : Nat → K) (k2 j2 i2 : Int), prim2 IDN = prim IDN → prim2 IPR = prim IPR →
        SoundSpeed sqrt eos prim2 k2 j2 i2 = SoundSpeed sqrt eos prim k j i)
    ∧ (∀ dfloor pfloor sfloor : K,
        SoundSpeed sqrt
          { gamma_ := eos.gamma_, density_floor_ := dfloor, pressure_floor_ := pfloor,
            scalar_floor_ := sfloor } prim k j i = SoundSpeed sqrt eos prim k j i)
    ∧ (∀ (eosR : EquationOfState ℝ) (primR : Nat → ℝ), eosR.gamma_ = 5 / 3 →
        primR IDN = 1 → primR IPR = 1 →
        SoundSpeed Real.sqrt eosR primR k j i = Real.sqrt (5 / 3)) := by
  refine ⟨rfl, ?_, ?_, ?_⟩
  · intro prim2 k2 j2 i2 h0 h4
    unfold SoundSpeed
    rw [h0, h4]
  · intro dfloor pfloor sfloor
    rfl
  · intro eosR primR hg h0 h4
    unfold SoundSpeed
    rw [hg, h0, h4]
    norm_num

/-- The sound speed of a cell with positive `gamma`, density and pressure. -/
theorem soundSpeed_pos (eos : EquationOfState ℝ) (prim : Nat → ℝ) (k j i : Int)
    (hγ : 0 < eos.gamma_) (hρ : 0 < prim IDN) (hp : 0 < prim IPR) :
    0 < eos.gamma_ * prim IPR / prim IDN
    ∧ prim IDN ≠ 0
    ∧ 0 < SoundSpeed Real.sqrt eos prim k j i
    ∧ (SoundSpeed Real.sqrt eos prim k j i) ^ 2 = eos.gamma_ * prim IPR / prim IDN := by
  have hrad : 0 < eos.gamma_ * prim IPR / prim IDN := div_pos (mul_pos hγ hp) hρ
  refine ⟨hrad, ne_of_gt hρ, ?_, ?_⟩
  · unfold SoundSpeed
    exact Real.sqrt_pos.mpr hrad
  · unfold SoundSpeed
    exact Real.sq_sqrt (le_of_lt hrad)

/-! ### Values written by the single-cell floor routines -/

/-- The density and pressure `ApplyPrimitiveFloors` leaves at the interface state `i`. -/
theorem ApplyPrimitiveFloors_values (eos : EquationOfState K) (prim : AthenaSlice K)
    (k j i : Int) :
    ApplyPrimitiveFloors eos prim k j i IDN i = max (prim IDN i) eos.density_floor_
    ∧ ApplyPrimitiveFloors eos prim k j i IPR i = max (prim IPR i) eos.pressure_floor_ := by
  constructor
  · rw [← floor_eq_max]
    simp [ApplyPrimitiveFloors, AthenaSlice.set]
  · rw [← floor_eq_max]
    simp [ApplyPrimitiveFloors, AthenaSlice.set]

/-- The values `ApplyPrimitiveConservedFloors` leaves at its cell, in terms of the floored
density `d` and the kinetic energy `ek` it computes from the primitive velocities. -/
theorem ApplyPrimitiveConservedFloors_values (eos : EquationOfState K)
    (prim cons : AthenaArray K) (k j i : Int) (d ek : K)
    (hd : d = if prim IDN k j i > eos.density_floor_ then prim IDN k j i
              else eos.density_floor_)
    (hek : ek = 0.5 * d
      * (SQR (prim IVX k j i) + SQR (prim IVY k j i) + SQR (prim IVZ k j i))) :
    ((ApplyPrimitiveConservedFloors eos prim cons k j i).prim IDN k j i = d
      ∧ (ApplyPrimitiveConservedFloors eos prim cons k j i).prim IPR k j i
          = (if prim IPR k j i > eos.pressure_floor_ then prim IPR k j i
             else eos.pressure_floor_)
      ∧ ∀ n, n ≠ IDN → n ≠ IPR →
          (ApplyPrimitiveConservedFloors eos prim cons k j i).prim n k j i = prim n k j i)
    ∧ ((ApplyPrimitiveConservedFloors eos prim cons k j i).cons IDN k j i = d
      ∧ (ApplyPrimitiveConservedFloors eos prim cons k j i).cons IEN k j i
          = (if prim IPR k j i > eos.pressure_floor_ then cons IEN k j i
             else eos.pressure_floor_ / (eos.gamma_ - 1.0) + ek)
      ∧ ∀ n, n ≠ IDN → n ≠ IEN →
          (ApplyPrimitiveConservedFloors eos prim cons k j i).cons n k j i = cons n k j i) := by
  subst hd hek
  refine ⟨⟨?_, ?_, ?_⟩, ?_, ?_, ?_⟩
  · simp [ApplyPrimitiveConservedFloors, AthenaArray.set_same_cell]
  · simp [ApplyPrimitiveConservedFloors, AthenaArray.set_same_cell]
  · intro n h0 h4
    simp [ApplyPrimitiveConservedFloors, AthenaArray.set_same_cell, h0, h4]
  · simp [ApplyPrimitiveConservedFloors, AthenaArray.set_same_cell]
  · simp [ApplyPrimitiveConservedFloors, AthenaArray.set_same_cell, EquationOfState.GetGamma]
  · intro n h0 h4
    simp [ApplyPrimitiveConservedFloors, AthenaArray.set_same_cell, h0, h4]

/-- The routine `ApplyPrimitiveConservedFloors` leaves every other cell as it was. -/
theorem ApplyPrimitiveConservedFloors_frame (eos : EquationOfState K)
    (prim cons : AthenaArray K) (k j i k0 j0 i0 : Int) (n : Nat)
    (h : ¬ (k = k0 ∧ j = j0 ∧ i = i0)) :
    (ApplyPrimitiveConservedFloors eos prim cons k j i).prim n k0 j0 i0 = prim n k0 j0 i0
    ∧ (ApplyPrimitiveConservedFloors eos prim cons k j i).cons n k0 j0 i0
        = cons n k0 j0 i0 := by
  unfold ApplyPrimitiveConservedFloors
  simp only [AthenaArray.set_other_cell _ _ _ _ _ _ _ _ _ _ h, and_self]

/-- C15: `SoundSpeed` is well defined on floored primitives.  For `gamma > 0`,
`density_floor > 0`, `pressure_floor > 0` and a primitive cell with `rho ≥ density_floor`,
`p ≥ pressure_floor`, the radicand `gamma*p/rho` is positive, the density divided by is
nonzero, and the returned `c` is positive with `c^2 = gamma*p/rho`; this applies to every
primitive cell written by `ConservedToPrimitive` (in its range), by `ApplyPrimitiveFloors`
and by `ApplyPrimitiveConservedFloors`. -/
theorem C15_sound_speed_well_defined (eos : EquationOfState ℝ)
    (hγ : 0 < eos.gamma_) (hdf : 0 < eos.density_floor_) (hpf : 0 < eos.pressure_floor_) :
    (∀ (prim : Nat → ℝ) (k j i : Int),
        eos.density_floor_ ≤ prim IDN → eos.pressure_floor_ ≤ prim IPR →
        0 < eos.gamma_ * prim IPR / prim IDN
        ∧ prim IDN ≠ 0
        ∧ 0 < SoundSpeed Real.sqrt eos prim k j i
        ∧ (SoundSpeed Real.sqrt eos prim k j i) ^ 2 = eos.gamma_ * prim IPR / prim IDN)
    ∧ (∀ (cons prim : AthenaArray ℝ) (il iu jl ju kl ku k j i : Int),
        (kl ≤ k ∧ k ≤ ku) ∧ (jl ≤ j ∧ j ≤ ju) ∧ (il ≤ i ∧ i ≤ iu) →
        eos.density_floor_ ≤ (ConservedToPrimitive eos cons prim il iu jl ju kl ku).prim IDN k j i
        ∧ eos.pressure_floor_
            ≤ (ConservedToPrimitive eos cons prim il iu jl ju kl ku).prim IPR k j i
        ∧ 0 < SoundSpeed Real.sqrt eos
            (fun n => (ConservedToPrimitive eos cons prim il iu jl ju kl ku).prim n k j i) k j i)
    ∧ (∀ (prim : AthenaSlice ℝ) (k j i : Int),
        eos.density_floor_ ≤ ApplyPrimitiveFloors eos prim k j i IDN i
        ∧ eos.pressure_floor_ ≤ ApplyPrimitiveFloors eos prim k j i IPR i
        ∧ 0 < SoundSpeed Real.sqrt eos (fun n => ApplyPrimitiveFloors eos prim k j i n i) k j i)
    ∧ (∀ (prim cons : AthenaArray ℝ) (k j i : Int),
        eos.density_floor_ ≤ (ApplyPrimitiveConservedFloors eos prim cons k j i).prim IDN k j i
        ∧ eos.pressure_floor_
            ≤ (ApplyPrimitiveConservedFloors eos prim cons k j i).prim IPR k j i
        ∧ 0 < SoundSpeed Real.sqrt eos
            (fun n => (ApplyPrimitiveConservedFloors eos prim cons k j i).prim n k j i)
            k j i) := by
  have core : ∀ (prim : Nat → ℝ) (k j i : Int),
      eos.density_floor_ ≤ prim IDN → eos.pressure_floor_ ≤ prim IPR →
      0 < eos.gamma_ * prim IPR / prim IDN
      ∧ prim IDN ≠ 0
      ∧ 0 < SoundSpeed Real.sqrt eos prim k j i
      ∧ (SoundSpeed Real.sqrt eos prim k j i) ^ 2 = eos.gamma_ * prim IPR / prim IDN :=
    fun prim k j i hρ hp =>
      soundSpeed_pos eos prim k j i hγ (lt_of_lt_of_le hdf hρ) (lt_of_lt_of_le hpf hp)
  refine ⟨core, ?_, ?_, ?_⟩
  · intro cons prim il iu jl ju kl ku k j i hrange
    obtain ⟨-, w0, -, -, -, w4, -⟩ :=
      ConservedToPrimitive_values eos cons prim il iu jl ju kl ku k j i hrange
        _ _ _ rfl rfl rfl
    have h0 : eos.density_floor_
        ≤ (ConservedToPrimitive eos cons prim il iu jl ju kl ku).prim IDN k j i := by
      rw [w0, floor_eq_max]
      exact le_max_right _ _
    have h4 : eos.pressure_floor_
        ≤ (ConservedToPrimitive eos cons prim il iu jl ju kl ku).prim IPR k j i := by
      rw [w4, floor_eq_max]
      exact le_max_right _ _
    exact ⟨h0, h4, (core _ k j i h0 h4).2.2.1⟩
  · intro prim k j i
    obtain ⟨w0, w4⟩ := ApplyPrimitiveFloors_values eos prim k j i
    have h0 : eos.density_floor_ ≤ ApplyPrimitiveFloors eos prim k j i IDN i := by
      rw [w0]
      exact le_max_right _ _
    have h4 : eos.pressure_floor_ ≤ ApplyPrimitiveFloors eos prim k j i IPR i := by
      rw [w4]
      exact le_max_right _ _
    exact ⟨h0, h4, (core _ k j i h0 h4).2.2.1⟩
  · intro prim cons k j i
    obtain ⟨⟨w0, w4, -⟩, -⟩ :=
      ApplyPrimitiveConservedFloors_values eos prim cons k j i _ _ rfl rfl
    have h0 : eos.density_floor_
        ≤ (ApplyPrimitiveConservedFloors eos prim cons k j i).prim IDN k j i := by
      rw [w0, floor_eq_max]
      exact le_max_right _ _
    have h4 : eos.pressure_floor_
        ≤ (ApplyPrimitiveConservedFloors eos prim cons k j i).prim IPR k j i := by
      rw [w4, floor_eq_max]
      exact le_max_right _ _
    exact ⟨h0, h4, (core _ k j i h0 h4).2.2.1⟩

/-- C15 at `gamma = 5/3`, floors `1/100` and the cell `(rho = 1, p = 1)`. -/
theorem C15_sound_speed_well_defined_witness :
    0 < SoundSpeed Real.sqrt
        { gamma_ := 5 / 3, density_floor_ := 1 / 100, pressure_floor_ := 1 / 100,
          scalar_floor_ := 1 / 100 }
        (fun n => if n = IDN then 1 else if n = IPR then 1 else 0) 0 0 0 :=
  ((C15_sound_speed_well_defined
      { gamma_ := 5 / 3, density_floor_ := 1 / 100, pressure_floor_ := 1 / 100,
        scalar_floor_ := 1 / 100 }
      (by norm_num) (by norm_num) (by norm_num)).1
    (fun n => if n = IDN then 1 else if n = IPR then 1 else 0) 0 0 0
    (by norm_num) (by norm_num)).2.2.1

/-! ### `ApplyPrimitiveConservedFloors` against `ConservedToPrimitive` -/

/-- C12 (as stated, refuted): at `gamma = 7/5`, `density_floor = 1`, `pressure_floor = 37/10`
the conserved cell `(rho = 1/2, m = (1,0,0), E = 10)` has positive density below the floor.
Its conversion without floors is `(rho = 1/2, v = (2,0,0), p = 18/5)`.  On that pair
`ApplyPrimitiveConservedFloors` writes pressure `37/10` and energy `45/4`, whereas
`ConservedToPrimitive` writes pressure `19/5` and keeps the energy `10`. -/
theorem C12_counterexample :
    (1 < highFloorEos.gamma_ ∧ 0 < highFloorEos.density_floor_
      ∧ 0 < highFloorEos.pressure_floor_ ∧ 0 < thinCons IDN 0 0 0)
    ∧ (thinPrim IDN 0 0 0 = thinCons IDN 0 0 0
      ∧ thinPrim IVX 0 0 0 = thinCons IM1 0 0 0 / thinCons IDN 0 0 0
      ∧ thinPrim IVY 0 0 0 = thinCons IM2 0 0 0 / thinCons IDN 0 0 0
      ∧ thinPrim IVZ 0 0 0 = thinCons IM3 0 0 0 / thinCons IDN 0 0 0
      ∧ thinPrim IPR 0 0 0 = (highFloorEos.gamma_ - 1)
          * (thinCons IEN 0 0 0
            - ((thinCons IM1 0 0 0) ^ 2 + (thinCons IM2 0 0 0) ^ 2 + (thinCons IM3 0 0 0) ^ 2)
              / (2 * thinCons IDN 0 0 0)))
    ∧ (ApplyPrimitiveConservedFloors highFloorEos thinPrim thinCons 0 0 0).prim IPR 0 0 0
        = 37 / 10
    ∧ (ConservedToPrimitive highFloorEos thinCons zeroArray 0 0 0 0 0 0).prim IPR 0 0 0
        = 19 / 5
    ∧ (ApplyPrimitiveConservedFloors highFloorEos thinPrim thinCons 0 0 0).cons IEN 0 0 0
        = 45 / 4
    ∧ (ConservedToPrimitive highFloorEos thinCons zeroArray 0 0 0 0 0 0).cons IEN 0 0 0
        = 10 := by
  obtain ⟨⟨-, a4, -⟩, -, ae, -⟩ :=
    ApplyPrimitiveConservedFloors_values highFloorEos thinPrim thinCons 0 0 0 _ _ rfl rfl
  obtain ⟨⟨-, c4, -⟩, -, -, -, -, w4, -⟩ :=
    ConservedToPrimitive_values highFloorEos thinCons zeroArray 0 0 0 0 0 0 0 0 0
      (by decide) _ _ _ rfl rfl rfl
  refine ⟨?_, ?_, ?_, ?_, ?_, ?_⟩
  · norm_num [highFloorEos, thinCons]
  · norm_num [highFloorEos, thinCons, thinPrim]
  · rw [a4]
    norm_num [highFloorEos, thinPrim]
  · rw [w4]
    norm_num [highFloorEos, thinCons, SQR]
  · rw [ae]
    norm_num [highFloorEos, thinPrim, thinCons, SQR]
  · rw [c4]
    norm_num [highFloorEos, thinCons, SQR]

/-- C12 (amended): let the primitive cell hold the conversion without floors of a conserved
cell with `rho > 0`.  Then `ApplyPrimitiveConservedFloors` on that pair writes the same
conserved density and the same primitive density as `ConservedToPrimitive` writes from the
conserved cell; and when moreover `rho ≥ density_floor` it writes the same conserved energy
and the same primitive pressure. -/
theorem C12_floor_logic_agrees (eos : EquationOfState K) (cons prim prim0 : AthenaArray K)
    (il iu jl ju kl ku k j i : Int)
    (hrange : (kl ≤ k ∧ k ≤ ku) ∧ (jl ≤ j ∧ j ≤ ju) ∧ (il ≤ i ∧ i ≤ iu))
    (hρ : 0 < cons IDN k j i)
    (h0 : prim IDN k j i = cons IDN k j i)
    (h1 : prim IVX k j i = cons IM1 k j i / cons IDN k j i)
    (h2 : prim IVY k j i = cons IM2 k j i / cons IDN k j i)
    (h3 : prim IVZ k j i = cons IM3 k j i / cons IDN k j i)
    (h4 : prim IPR k j i = (eos.gamma_ - 1)
      * (cons IEN k j i
        - ((cons IM1 k j i) ^ 2 + (cons IM2 k j i) ^ 2 + (cons IM3 k j i) ^ 2)
          / (2 * cons IDN k j i))) :
    (ApplyPrimitiveConservedFloors eos prim cons k j i).cons IDN k j i
        = (ConservedToPrimitive eos cons prim0 il iu jl ju kl ku).cons IDN k j i
    ∧ (ApplyPrimitiveConservedFloors eos prim cons k j i).prim IDN k j i
        = (ConservedToPrimitive eos cons prim0 il iu jl ju kl ku).prim IDN k j i
    ∧ (eos.density_floor_ ≤ cons IDN k j i →
        (ApplyPrimitiveConservedFloors eos prim cons k j i).cons IEN k j i
          = (ConservedToPrimitive eos cons prim0 il iu jl ju kl ku).cons IEN k j i
        ∧ (ApplyPrimitiveConservedFloors eos prim cons k j i).prim IPR k j i
          = (ConservedToPrimitive eos cons prim0 il iu jl ju kl ku).prim IPR k j i) := by
  have hd0 : cons IDN k j i ≠ 0 := ne_of_gt hρ
  obtain ⟨⟨a0, -, -⟩, ac0, -, -⟩ :=
    ApplyPrimitiveConservedFloors_values eos prim cons k j i _ _ rfl rfl
  obtain ⟨⟨c0, -, -⟩, w0, -⟩ :=
    ConservedToPrimitive_values eos cons prim0 il iu jl ju kl ku k j i hrange
      _ _ _ rfl rfl rfl
  rw [h0] at a0 ac0
  refine ⟨ac0.trans c0.symm, a0.trans w0.symm, ?_⟩
  intro hge
  -- with the density on or above its floor both routines work with the same `e_k` and `p`
  obtain ⟨⟨-, a4, -⟩, -, ae, -⟩ :=
    ApplyPrimitiveConservedFloors_values eos prim cons k j i (cons IDN k j i)
      (((cons IM1 k j i) ^ 2 + (cons IM2 k j i) ^ 2 + (cons IM3 k j i) ^ 2)
        / (2 * cons IDN k j i))
      (by rw [h0, floor_eq_self _ _ hge])
      (by rw [h1, h2, h3]; simp only [lit_half, SQR]; field_simp; ring)
  obtain ⟨⟨-, c4, -⟩, -, -, -, -, w4, -⟩ :=
    ConservedToPrimitive_values eos cons prim0 il iu jl ju kl ku k j i hrange
      (cons IDN k j i)
      (((cons IM1 k j i) ^ 2 + (cons IM2 k j i) ^ 2 + (cons IM3 k j i) ^ 2)
        / (2 * cons IDN k j i))
      (prim IPR k j i)
      (floor_eq_self _ _ hge).symm
      (by simp only [lit_one, lit_half, SQR]; field_simp; ring)
      (by rw [h4, lit_one])
  exact ⟨ae.trans c4.symm, a4.trans w4.symm⟩

/-- C12 (amended) at `demoEos`, the conserved cell `(rho = 2, m = (2,0,0), E = 5)` and its
conversion without floors `(rho = 2, v = (1,0,0), p = 8/5)`. -/
theorem C12_floor_logic_agrees_witness :
    (ApplyPrimitiveConservedFloors demoEos
        (fun n _ _ _ => if n = IDN then 2 else if n = IVX then 1 else if n = IPR then 8 / 5
          else 0) demoCons 0 0 0).prim IPR 0 0 0
      = (ConservedToPrimitive demoEos demoCons zeroArray 0 0 0 0 0 0).prim IPR 0 0 0 :=
  ((C12_floor_logic_agrees demoEos demoCons
    (fun n _ _ _ => if n = IDN then 2 else if n = IVX then 1 else if n = IPR then 8 / 5 else 0)
    zeroArray 0 0 0 0 0 0 0 0 0 (by decide)
    (by norm_num [demoCons]) (by norm_num [demoCons]) (by norm_num [demoCons])
    (by norm_num [demoCons]) (by norm_num [demoCons])
    (by norm_num [demoCons, demoEos])).2.2 (by norm_num [demoCons, demoEos])).2

/-- C13: postcondition of `ApplyPrimitiveConservedFloors`.  For `gamma ≠ 1` and every input
pair, on return the primitive density is `max(rho, density_floor)`, the conserved density
equals it, the primitive pressure is `max(p, pressure_floor)`, the primitive velocities and the
conserved momenta are unchanged, and so is every entry of every other cell; the conserved
energy is unchanged when `p > pressure_floor`, and otherwise it is
`pressure_floor/(gamma-1) + (1/2)*rho_out*(v1^2+v2^2+v3^2)`, so that the written density,
velocity, pressure and energy satisfy the ideal-gas energy relation. -/
theorem C13_apply_primitive_conserved_floors_post (eos : EquationOfState K)
    (prim cons : AthenaArray K) (k j i : Int) (hγ : eos.gamma_ ≠ 1) :
    (ApplyPrimitiveConservedFloors eos prim cons k j i).prim IDN k j i
        = max (prim IDN k j i) eos.density_floor_
    ∧ (ApplyPrimitiveConservedFloors eos prim cons k j i).cons IDN k j i
        = (ApplyPrimitiveConservedFloors eos prim cons k j i).prim IDN k j i
    ∧ (ApplyPrimitiveConservedFloors eos prim cons k j i).prim IPR k j i
        = max (prim IPR k j i) eos.pressure_floor_
    ∧ (∀ n, n ≠ IDN → n ≠ IPR →
        (ApplyPrimitiveConservedFloors eos prim cons k j i).prim n k j i = prim n k j i)
    ∧ (∀ n, n ≠ IDN → n ≠ IEN →
        (ApplyPrimitiveConservedFloors eos prim cons k j i).cons n k j i = cons n k j i)
    ∧ (∀ n k0 j0 i0, ¬ (k = k0 ∧ j = j0 ∧ i = i0) →
        (ApplyPrimitiveConservedFloors eos prim cons k j i).prim n k0 j0 i0 = prim n k0 j0 i0
        ∧ (ApplyPrimitiveConservedFloors eos prim cons k j i).cons n k0 j0 i0
            = cons n k0 j0 i0)
    ∧ (eos.pressure_floor_ < prim IPR k j i →
        (ApplyPrimitiveConservedFloors eos prim cons k j i).cons IEN k j i = cons IEN k j i)
    ∧ (prim IPR k j i ≤ eos.pressure_floor_ →
        (ApplyPrimitiveConservedFloors eos prim cons k j i).cons IEN k j i
          = eos.pressure_floor_ / (eos.gamma_ - 1)
            + 1 / 2 * (ApplyPrimitiveConservedFloors eos prim cons k j i).prim IDN k j i
              * ((prim IVX k j i) ^ 2 + (prim IVY k j i) ^ 2 + (prim IVZ k j i) ^ 2)
        ∧ (ApplyPrimitiveConservedFloors eos prim cons k j i).cons IEN k j i
          = (ApplyPrimitiveConservedFloors eos prim cons k j i).prim IPR k j i
              / (eos.gamma_ - 1)
            + 1 / 2 * (ApplyPrimitiveConservedFloors eos prim cons k j i).prim IDN k j i
              * (((ApplyPrimitiveConservedFloors eos prim cons k j i).prim IVX k j i) ^ 2
                + ((ApplyPrimitiveConservedFloors eos prim cons k j i).prim IVY k j i) ^ 2
                + ((ApplyPrimitiveConservedFloors eos prim cons k j i).prim IVZ k j i) ^ 2)
        ∧ (eos.gamma_ - 1)
            * ((ApplyPrimitiveConservedFloors eos prim cons k j i).cons IEN k j i
              - 1 / 2 * (ApplyPrimitiveConservedFloors eos prim cons k j i).prim IDN k j i
                * ((prim IVX k j i) ^ 2 + (prim IVY k j i) ^ 2 + (prim IVZ k j i) ^ 2))
          = (ApplyPrimitiveConservedFloors eos prim cons k j i).prim IPR k j i) := by
  have hg : eos.gamma_ - 1 ≠ 0 := sub_ne_zero.mpr hγ
  obtain ⟨⟨a0, a4, an⟩, ac0, ae, acn⟩ :=
    ApplyPrimitiveConservedFloors_values eos prim cons k j i
      (max (prim IDN k j i) eos.density_floor_) _ (floor_eq_max _ _).symm rfl
  have v1 := an IVX (by decide) (by decide)
  have v2 := an IVY (by decide) (by decide)
  have v3 := an IVZ (by decide) (by decide)
  refine ⟨a0, ac0.trans a0.symm, ?_, an, acn, ?_, ?_, ?_⟩
  · rw [a4, floor_eq_max]
  · intro n k0 j0 i0 hne
    exact ApplyPrimitiveConservedFloors_frame eos prim cons k j i k0 j0 i0 n hne
  · intro hgt
    rw [ae, if_pos hgt]
  · intro hle
    have hnot : ¬ prim IPR k j i > eos.pressure_floor_ := not_lt.mpr hle
    rw [if_neg hnot] at ae a4
    have hE : (ApplyPrimitiveConservedFloors eos prim cons k j i).cons IEN k j i
        = eos.pressure_floor_ / (eos.gamma_ - 1)
          + 1 / 2 * (ApplyPrimitiveConservedFloors eos prim cons k j i).prim IDN k j i
            * ((prim IVX k j i) ^ 2 + (prim IVY k j i) ^ 2 + (prim IVZ k j i) ^ 2) := by
      rw [ae, a0]
      simp only [lit_one, lit_half, SQR]
      ring
    refine ⟨hE, ?_, ?_⟩
    · rw [v1, v2, v3, a4]
      exact hE
    · rw [hE, a4]
      field_simp
      ring

/-- C13 at `demoEos` on the pair (`thinPrim`, `thinCons`): the pressure `18/5` is above the
floor `1/100`, the density `1/2` too, and the energy stays `10`. -/
theorem C13_apply_primitive_conserved_floors_post_witness :
    (ApplyPrimitiveConservedFloors demoEos thinPrim thinCons 0 0 0).cons IEN 0 0 0
      = thinCons IEN 0 0 0 :=
  (C13_apply_primitive_conserved_floors_post demoEos thinPrim thinCons 0 0 0
    (by norm_num [demoEos])).2.2.2.2.2.2.1 (by norm_num [demoEos, thinPrim])

/-- C16: `ConservedToPrimitive` is idempotent.  For `gamma ≠ 1` and every input, running it a
second time on the conserved array left by the first run writes, at every cell of the range,
the same conserved cell and the same primitive cell as the first run, whichever floors the
first run triggered. -/
theorem C16_cons_to_prim_idempotent (eos : EquationOfState K)
    (cons prim prim0 : AthenaArray K) (il iu jl ju kl ku k j i : Int)
    (hγ : eos.gamma_ ≠ 1)
    (hrange : (kl ≤ k ∧ k ≤ ku) ∧ (jl ≤ j ∧ j ≤ ju) ∧ (il ≤ i ∧ i ≤ iu)) :
    (∀ n,
      (ConservedToPrimitive eos (ConservedToPrimitive eos cons prim il iu jl ju kl ku).cons
        prim0 il iu jl ju kl ku).cons n k j i
        = (ConservedToPrimitive eos cons prim il iu jl ju kl ku).cons n k j i)
    ∧ (∀ n, n < NHYDRO →
      (ConservedToPrimitive eos (ConservedToPrimitive eos cons prim il iu jl ju kl ku).cons
        prim0 il iu jl ju kl ku).prim n k j i
        = (ConservedToPrimitive eos cons prim il iu jl ju kl ku).prim n k j i) := by
  have hg : eos.gamma_ - 1 ≠ 0 := sub_ne_zero.mpr hγ
  obtain ⟨⟨c0, c4, cn⟩, w0, w1, w2, w3, w4, -⟩ :=
    ConservedToPrimitive_values eos cons prim il iu jl ju kl ku k j i hrange
      (max (cons IDN k j i) eos.density_floor_) _ _ (floor_eq_max _ _).symm rfl rfl
  have c1 := cn IM1 (by decide) (by decide)
  have c2 := cn IM2 (by decide) (by decide)
  have c3 := cn IM3 (by decide) (by decide)
  -- the second run sees the same floored density and the same kinetic energy
  obtain ⟨⟨d0, d4, dn⟩, x0, x1, x2, x3, x4, -⟩ :=
    ConservedToPrimitive_values eos (ConservedToPrimitive eos cons prim il iu jl ju kl ku).cons
      prim0 il iu jl ju kl ku k j i hrange
      (max (cons IDN k j i) eos.density_floor_)
      (0.5 * (1.0 / max (cons IDN k j i) eos.density_floor_)
        * (SQR (cons IM1 k j i) + SQR (cons IM2 k j i) + SQR (cons IM3 k j i)))
      _
      (by rw [c0, floor_eq_self _ _ (le_max_right _ _)])
      (by rw [c1, c2, c3])
      rfl
  -- the candidate pressure of the second run is the pressure written by the first
  have hp2 : (eos.gamma_ - 1.0)
      * ((ConservedToPrimitive eos cons prim il iu jl ju kl ku).cons IEN k j i
        - 0.5 * (1.0 / max (cons IDN k j i) eos.density_floor_)
          * (SQR (cons IM1 k j i) + SQR (cons IM2 k j i) + SQR (cons IM3 k j i)))
      = (ConservedToPrimitive eos cons prim il iu jl ju kl ku).prim IPR k j i := by
    rw [c4, w4]
    split_ifs with h
    · rfl
    · rw [lit_one]
      field_simp
      ring
  rw [hp2] at d4 x4
  have hfl : eos.pressure_floor_
      ≤ (ConservedToPrimitive eos cons prim il iu jl ju kl ku).prim IPR k j i := by
    rw [w4, floor_eq_max]
    exact le_max_right _ _
  rw [floor_eq_self _ _ hfl] at x4
  have hE : (ConservedToPrimitive eos
        (ConservedToPrimitive eos cons prim il iu jl ju kl ku).cons
        prim0 il iu jl ju kl ku).cons IEN k j i
      = (ConservedToPrimitive eos cons prim il iu jl ju kl ku).cons IEN k j i := by
    rw [d4]
    split_ifs with h
    · rfl
    · have hnot : ¬ ((eos.gamma_ - 1.0) * (cons IEN k j i
            - 0.5 * (1.0 / max (cons IDN k j i) eos.density_floor_)
              * (SQR (cons IM1 k j i) + SQR (cons IM2 k j i) + SQR (cons IM3 k j i)))
          > eos.pressure_floor_) := by
        intro hgt
        rw [w4, if_pos hgt] at h
        exact h hgt
      rw [c4, if_neg hnot]
  constructor
  · intro n
    by_cases h0 : n = IDN
    · rw [h0, d0, c0]
    · by_cases h4 : n = IEN
      · rw [h4, hE]
      · rw [dn n h0 h4]
  · intro n hn
    have hn5 : n < 5 := hn
    interval_cases n
    · rw [x0, w0]
    · rw [x1, w1, c1]
    · rw [x2, w2, c2]
    · rw [x3, w3, c3]
    · exact x4

/-- C16 at `demoEos` and `lowCons`, where the first run triggers the density floor. -/
theorem C16_cons_to_prim_idempotent_witness :
    (ConservedToPrimitive demoEos (ConservedToPrimitive demoEos lowCons zeroArray 0 0 0 0 0 0).cons
        zeroArray 0 0 0 0 0 0).prim IPR 0 0 0
      = (ConservedToPrimitive demoEos lowCons zeroArray 0 0 0 0 0 0).prim IPR 0 0 0 :=
  (C16_cons_to_prim_idempotent demoEos lowCons zeroArray zeroArray 0 0 0 0 0 0 0 0 0
    (by norm_num [demoEos]) (by decide)).2 IPR (by decide)

/-- C17: `ConservedToPrimitive` only ever raises conserved quantities.  For `gamma > 1` and
every input, at a cell of the range the output conserved density is
`max(rho, density_floor) ≥ rho`, and with `e_k = (m1^2+m2^2+m3^2)/(2*max(rho, density_floor))`
the output conserved energy is `max(E, pressure_floor/(gamma-1) + e_k) ≥ E` and the output
primitive pressure is `max((gamma-1)*(E - e_k), pressure_floor)`. -/
theorem C17_floors_only_raise (eos : EquationOfState K) (cons prim : AthenaArray K)
    (il iu jl ju kl ku k j i : Int) (hγ : 1 < eos.gamma_)
    (hrange : (kl ≤ k ∧ k ≤ ku) ∧ (jl ≤ j ∧ j ≤ ju) ∧ (il ≤ i ∧ i ≤ iu))
    (e_k : K)
    (hek : e_k = ((cons IM1 k j i) ^ 2 + (cons IM2 k j i) ^ 2 + (cons IM3 k j i) ^ 2)
      / (2 * max (cons IDN k j i) eos.density_floor_)) :
    (ConservedToPrimitive eos cons prim il iu jl ju kl ku).cons IDN k j i
        = max (cons IDN k j i) eos.density_floor_
    ∧ cons IDN k j i ≤ (ConservedToPrimitive eos cons prim il iu jl ju kl ku).cons IDN k j i
    ∧ (ConservedToPrimitive eos cons prim il iu jl ju kl ku).cons IEN k j i
        = max (cons IEN k j i) (eos.pressure_floor_ / (eos.gamma_ - 1) + e_k)
    ∧ cons IEN k j i ≤ (ConservedToPrimitive eos cons prim il iu jl ju kl ku).cons IEN k j i
    ∧ (ConservedToPrimitive eos cons prim il iu jl ju kl ku).prim IPR k j i
        = max ((eos.gamma_ - 1) * (cons IEN k j i - e_k)) eos.pressure_floor_ := by
  have hg : 0 < eos.gamma_ - 1 := sub_pos.mpr hγ
  obtain ⟨⟨c0, c4, -⟩, -, -, -, -, w4, -⟩ :=
    ConservedToPrimitive_values eos cons prim il iu jl ju kl ku k j i hrange
      (max (cons IDN k j i) eos.density_floor_) e_k
      ((eos.gamma_ - 1) * (cons IEN k j i - e_k))
      (floor_eq_max _ _).symm
      (by rw [hek]; simp only [lit_one, lit_half, SQR]; ring)
      (by rw [lit_one])
  rw [lit_one] at c4
  -- the pressure test is the energy test
  have key : (eos.gamma_ - 1) * (cons IEN k j i - e_k) > eos.pressure_floor_
      ↔ eos.pressure_floor_ / (eos.gamma_ - 1) + e_k < cons IEN k j i := by
    constructor
    · intro h
      have h1 : eos.pressure_floor_ / (eos.gamma_ - 1) < cons IEN k j i - e_k := by
        rw [div_lt_iff₀ hg]
        calc eos.pressure_floor_ < (eos.gamma_ - 1) * (cons IEN k j i - e_k) := h
          _ = (cons IEN k j i - e_k) * (eos.gamma_ - 1) := mul_comm _ _
      exact lt_sub_iff_add_lt.mp h1
    · intro h
      have h1 : eos.pressure_floor_ / (eos.gamma_ - 1) < cons IEN k j i - e_k :=
        lt_sub_iff_add_lt.mpr h
      rw [div_lt_iff₀ hg] at h1
      calc eos.pressure_floor_ < (cons IEN k j i - e_k) * (eos.gamma_ - 1) := h1
        _ = (eos.gamma_ - 1) * (cons IEN k j i - e_k) := mul_comm _ _
  have hE : (ConservedToPrimitive eos cons prim il iu jl ju kl ku).cons IEN k j i
      = max (cons IEN k j i) (eos.pressure_floor_ / (eos.gamma_ - 1) + e_k) := by
    rw [c4]
    by_cases h : (eos.gamma_ - 1) * (cons IEN k j i - e_k) > eos.pressure_floor_
    · rw [if_pos h, max_eq_left (le_of_lt (key.mp h))]
    · rw [if_neg h, max_eq_right (le_of_not_lt (fun h2 => h (key.mpr h2)))]
  refine ⟨c0, ?_, hE, ?_, ?_⟩
  · rw [c0]
    exact le_max_left _ _
  · rw [hE]
    exact le_max_left _ _
  · rw [w4, floor_eq_max]

/-- C17 at `demoEos` and `lowCons`: the density `0` is raised to `1/100`, `e_k = 50`. -/
theorem C17_floors_only_raise_witness :
    lowCons IDN 0 0 0
        ≤ (ConservedToPrimitive demoEos lowCons zeroArray 0 0 0 0 0 0).cons IDN 0 0 0
    ∧ lowCons IEN 0 0 0
        ≤ (ConservedToPrimitive demoEos lowCons zeroArray 0 0 0 0 0 0).cons IEN 0 0 0 :=
  ⟨(C17_floors_only_raise demoEos lowCons zeroArray 0 0 0 0 0 0 0 0 0
      (by norm_num [demoEos]) (by decide) 50 (by norm_num [demoEos, lowCons])).2.1,
    (C17_floors_only_raise demoEos lowCons zeroArray 0 0 0 0 0 0 0 0 0
      (by norm_num [demoEos]) (by decide) 50 (by norm_num [demoEos, lowCons])).2.2.2.1⟩

/-- Two pairs of arrays with the same cells are the same pair. -/
theorem HydroArrays.eq_of_cells {α : Type} (s t : HydroArrays α)
    (h : ∀ k j i, (fun n => s.cons n k j i) = (fun n => t.cons n k j i)
      ∧ (fun n => s.prim n k j i) = (fun n => t.prim n k j i)) : s = t := by
  cases s with
  | mk sc sp =>
    cases t with
    | mk tc tp =>
      have hc : sc = tc := by
        funext n k j i
        exact congrFun (h k j i).1 n
      have hp : sp = tp := by
        funext n k j i
        exact congrFun (h k j i).2 n
      rw [hc, hp]

/-- C18: `ApplyPrimitiveConservedFloors` is a no-op on the output of `ConservedToPrimitive`.
For `density_floor > 0` and every input, applying it at a cell of the range to the pair of
arrays left by `ConservedToPrimitive` returns that pair unchanged, whether or not the output
pressure sits at `pressure_floor`. -/
theorem C18_floors_noop_after_cons_to_prim (eos : EquationOfState K)
    (cons prim : AthenaArray K) (il iu jl ju kl ku k j i : Int)
    (hdf : 0 < eos.density_floor_)
    (hrange : (kl ≤ k ∧ k ≤ ku) ∧ (jl ≤ j ∧ j ≤ ju) ∧ (il ≤ i ∧ i ≤ iu)) :
    ApplyPrimitiveConservedFloors eos
        (ConservedToPrimitive eos cons prim il iu jl ju kl ku).prim
        (ConservedToPrimitive eos cons prim il iu jl ju kl ku).cons k j i
      = ConservedToPrimitive eos cons prim il iu jl ju kl ku := by
  obtain ⟨⟨c0, c4, cn⟩, w0, w1, w2, w3, w4, -⟩ :=
    ConservedToPrimitive_values eos cons prim il iu jl ju kl ku k j i hrange
      (max (cons IDN k j i) eos.density_floor_) _ _ (floor_eq_max _ _).symm rfl rfl
  have hd0 : max (cons IDN k j i) eos.density_floor_ ≠ 0 :=
    ne_of_gt (lt_of_lt_of_le hdf (le_max_right _ _))
  have hfd : eos.density_floor_
      ≤ (ConservedToPrimitive eos cons prim il iu jl ju kl ku).prim IDN k j i := by
    rw [w0]
    exact le_max_right _ _
  have hfp : eos.pressure_floor_
      ≤ (ConservedToPrimitive eos cons prim il iu jl ju kl ku).prim IPR k j i := by
    rw [w4, floor_eq_max]
    exact le_max_right _ _
  -- the kinetic energy recomputed from the primitive velocities is the one of the sweep
  obtain ⟨⟨a0, a4, an⟩, ac0, ae, acn⟩ :=
    ApplyPrimitiveConservedFloors_values eos
      (ConservedToPrimitive eos cons prim il iu jl ju kl ku).prim
      (ConservedToPrimitive eos cons prim il iu jl ju kl ku).cons k j i
      ((ConservedToPrimitive eos cons prim il iu jl ju kl ku).prim IDN k j i)
      (0.5 * (1.0 / max (cons IDN k j i) eos.density_floor_)
        * (SQR (cons IM1 k j i) + SQR (cons IM2 k j i) + SQR (cons IM3 k j i)))
      (floor_eq_self _ _ hfd).symm
      (by rw [w0, w1, w2, w3]; simp only [lit_one, lit_half, SQR]; field_simp; ring)
  rw [floor_eq_self _ _ hfp] at a4
  have hE : (ApplyPrimitiveConservedFloors eos
        (ConservedToPrimitive eos cons prim il iu jl ju kl ku).prim
        (ConservedToPrimitive eos cons prim il iu jl ju kl ku).cons k j i).cons IEN k j i
      = (ConservedToPrimitive eos cons prim il iu jl ju kl ku).cons IEN k j i := by
    rw [ae]
    split_ifs with h
    · rfl
    · have hnot : ¬ ((eos.gamma_ - 1.0) * (cons IEN k j i
            - 0.5 * (1.0 / max (cons IDN k j i) eos.density_floor_)
              * (SQR (cons IM1 k j i) + SQR (cons IM2 k j i) + SQR (cons IM3 k j i)))
          > eos.pressure_floor_) := by
        intro hgt
        rw [w4, if_pos hgt] at h
        exact h hgt
      rw [c4, if_neg hnot]
  apply HydroArrays.eq_of_cells
  intro k0 j0 i0
  by_cases hc : k = k0 ∧ j = j0 ∧ i = i0
  · obtain ⟨rfl, rfl, rfl⟩ := hc
    constructor
    · funext n
      by_cases h0 : n = IDN
      · rw [h0, ac0, w0, c0]
      · by_cases h4 : n = IEN
        · rw [h4, hE]
        · exact acn n h0 h4
    · funext n
      by_cases h0 : n = IDN
      · rw [h0, a0]
      · by_cases h4 : n = IPR
        · rw [h4, a4]
        · exact an n h0 h4
  · constructor
    · funext n
      exact (ApplyPrimitiveConservedFloors_frame eos _ _ k j i k0 j0 i0 n hc).2
    · funext n
      exact (ApplyPrimitiveConservedFloors_frame eos _ _ k j i k0 j0 i0 n hc).1

/-- C18 at `demoEos` and `lowCons`, where the sweep triggered the density floor. -/
theorem C18_floors_noop_after_cons_to_prim_witness :
    ApplyPrimitiveConservedFloors demoEos
        (ConservedToPrimitive demoEos lowCons zeroArray 0 0 0 0 0 0).prim
        (ConservedToPrimitive demoEos lowCons zeroArray 0 0 0 0 0 0).cons 0 0 0
      = ConservedToPrimitive demoEos lowCons zeroArray 0 0 0 0 0 0 :=
  C18_floors_noop_after_cons_to_prim demoEos lowCons zeroArray 0 0 0 0 0 0 0 0 0
    (by norm_num [demoEos]) (by decide)

/-! ### The sweeps act cell by cell -/

/-- The body of `ConservedToPrimitive` at a cell reads that cell only. -/
theorem ConservedToPrimitive_body_congr (eos : EquationOfState K) (gm1 : K) (k j i : Int)
    (s t : HydroArrays K) (h : s.cell k j i = t.cell k j i) :
    (ConservedToPrimitive.body eos gm1 k j i s).cell k j i
      = (ConservedToPrimitive.body eos gm1 k j i t).cell k j i := by
  rw [ConservedToPrimitive_body_local eos gm1 k j i s,
    ConservedToPrimitive_body_local eos gm1 k j i t, h]

/-- The body of `PrimitiveToConserved` at a cell reads that cell only. -/
theorem PrimitiveToConserved_body_congr (prim prim2 : AthenaArray K) (igm1 : K) (k j i : Int)
    (cons cons2 : AthenaArray K) (hp : ∀ n, prim2 n k j i = prim n k j i)
    (hc : ∀ n, cons2 n k j i = cons n k j i) (n : Nat) :
    PrimitiveToConserved.body prim2 igm1 k j i cons2 n k j i
      = PrimitiveToConserved.body prim igm1 k j i cons n k j i := by
  unfold PrimitiveToConserved.body
  simp only [AthenaArray.set_same_cell, hp, hc]

/-- Folding the body of `ConservedToPrimitive` over any duplicate-free list of cells, read
at one cell. -/
theorem ConservedToPrimitive_fold_cell (eos : EquationOfState K) (gm1 : K)
    (l : List (Int × Int × Int)) (hnd : l.Nodup) (s : HydroArrays K) (k j i : Int) :
    (l.foldl (fun s c => ConservedToPrimitive.body eos gm1 c.1 c.2.1 c.2.2 s) s).cell k j i
      = if (k, j, i) ∈ l then (ConservedToPrimitive.body eos gm1 k j i s).cell k j i
        else s.cell k j i := by
  have key := foldl_get (fun (s : HydroArrays K) => s.cell k j i)
    (fun (c : Int × Int × Int) s => ConservedToPrimitive.body eos gm1 c.1 c.2.1 c.2.2 s)
    (fun v => (ConservedToPrimitive.body eos gm1 k j i (HydroArrays.ofCell v)).cell k j i)
    (k, j, i)
    (fun s => ConservedToPrimitive_body_local eos gm1 k j i s)
    (fun c s hne => ConservedToPrimitive_body_frame eos gm1 c.1 c.2.1 c.2.2 k j i s
      (fun h => hne (Prod.ext h.1 (Prod.ext h.2.1 h.2.2))))
    l hnd s
  rw [key]
  by_cases hm : (k, j, i) ∈ l
  · rw [if_pos hm, if_pos hm]
    exact (ConservedToPrimitive_body_local eos gm1 k j i s).symm
  · rw [if_neg hm, if_neg hm]

/-- Folding the body of `PrimitiveToConserved` over any duplicate-free list of cells, read
at one cell. -/
theorem PrimitiveToConserved_fold_cell (prim : AthenaArray K) (igm1 : K)
    (l : List (Int × Int × Int)) (hnd : l.Nodup) (cons : AthenaArray K) (k j i : Int)
    (n : Nat) :
    l.foldl (fun s c => PrimitiveToConserved.body prim igm1 c.1 c.2.1 c.2.2 s) cons n k j i
      = if (k, j, i) ∈ l then PrimitiveToConserved.body prim igm1 k j i cons n k j i
        else cons n k j i := by
  have key := foldl_get (fun (s : AthenaArray K) => fun n => s n k j i)
    (fun (c : Int × Int × Int) s => PrimitiveToConserved.body prim igm1 c.1 c.2.1 c.2.2 s)
    (fun v => fun n => PrimitiveToConserved.body prim igm1 k j i (fun m _ _ _ => v m) n k j i)
    (k, j, i)
    (fun s => PrimitiveToConserved_body_local prim igm1 k j i s)
    (fun c s hne => PrimitiveToConserved_body_frame prim igm1 c.1 c.2.1 c.2.2 k j i s
      (fun h => hne (Prod.ext h.1 (Prod.ext h.2.1 h.2.2))))
    l hnd cons
  have key2 := congrFun key n
  rw [key2]
  by_cases hm : (k, j, i) ∈ l
  · rw [if_pos hm, if_pos hm]
    exact (congrFun (PrimitiveToConserved_body_local prim igm1 k j i cons) n).symm
  · rw [if_neg hm, if_neg hm]

/-- C14: pointwise action and frame of the range sweeps.  For every inclusive range,
`ConservedToPrimitive` and `PrimitiveToConserved` (1) leave every entry of every cell outside
the range unchanged; (2) write at a cell of the range the values of the single-cell conversion
of that cell, which depend on the cell's own input values only (any arrays that agree with
the input at that cell give the same values); (3) give the same arrays when the loop body is
run over the cells of the range in any other order; (4) change nothing when the range is
empty. -/
theorem C14_sweeps_pointwise (eos : EquationOfState K) (cons prim : AthenaArray K)
    (il iu jl ju kl ku : Int) :
    (∀ (k j i : Int) (n : Nat),
        ¬ ((kl ≤ k ∧ k ≤ ku) ∧ (jl ≤ j ∧ j ≤ ju) ∧ (il ≤ i ∧ i ≤ iu)) →
        (ConservedToPrimitive eos cons prim il iu jl ju kl ku).cons n k j i = cons n k j i
        ∧ (ConservedToPrimitive eos cons prim il iu jl ju kl ku).prim n k j i = prim n k j i
        ∧ PrimitiveToConserved eos prim cons il iu jl ju kl ku n k j i = cons n k j i)
    ∧ (∀ (k j i : Int), (kl ≤ k ∧ k ≤ ku) ∧ (jl ≤ j ∧ j ≤ ju) ∧ (il ≤ i ∧ i ≤ iu) →
        ∀ cons2 prim2 : AthenaArray K,
        (∀ n, cons2 n k j i = cons n k j i) → (∀ n, prim2 n k j i = prim n k j i) →
        ∀ n : Nat,
        (ConservedToPrimitive eos cons prim il iu jl ju kl ku).cons n k j i
          = (ConservedToPrimitive eos cons2 prim2 i i j j k k).cons n k j i
        ∧ (ConservedToPrimitive eos cons prim il iu jl ju kl ku).prim n k j i
          = (ConservedToPrimitive eos cons2 prim2 i i j j k k).prim n k j i
        ∧ PrimitiveToConserved eos prim cons il iu jl ju kl ku n k j i
          = PrimitiveToConserved eos prim2 cons2 i i j j k k n k j i)
    ∧ (∀ l : List (Int × Int × Int), l.Nodup →
        (∀ k j i, (k, j, i) ∈ l ↔ (kl ≤ k ∧ k ≤ ku) ∧ (jl ≤ j ∧ j ≤ ju) ∧ (il ≤ i ∧ i ≤ iu)) →
        l.foldl (fun s c =>
            ConservedToPrimitive.body eos (eos.GetGamma - 1.0) c.1 c.2.1 c.2.2 s)
            { cons := cons, prim := prim }
          = ConservedToPrimitive eos cons prim il iu jl ju kl ku
        ∧ l.foldl (fun s c =>
            PrimitiveToConserved.body prim (1.0 / (eos.GetGamma - 1.0)) c.1 c.2.1 c.2.2 s)
            cons
          = PrimitiveToConserved eos prim cons il iu jl ju kl ku)
    ∧ (il > iu ∨ jl > ju ∨ kl > ku →
        ConservedToPrimitive eos cons prim il iu jl ju kl ku = { cons := cons, prim := prim }
        ∧ PrimitiveToConserved eos prim cons il iu jl ju kl ku = cons) := by
  -- (1) the frame
  have frame : ∀ (k j i : Int) (n : Nat),
      ¬ ((kl ≤ k ∧ k ≤ ku) ∧ (jl ≤ j ∧ j ≤ ju) ∧ (il ≤ i ∧ i ≤ iu)) →
      (ConservedToPrimitive eos cons prim il iu jl ju kl ku).cons n k j i = cons n k j i
      ∧ (ConservedToPrimitive eos cons prim il iu jl ju kl ku).prim n k j i = prim n k j i
      ∧ PrimitiveToConserved eos prim cons il iu jl ju kl ku n k j i = cons n k j i := by
    intro k j i n hout
    have h := ConservedToPrimitive_cell_out eos cons prim il iu jl ju kl ku k j i hout
    exact ⟨congrFun (congrArg Prod.fst h) n, congrFun (congrArg Prod.snd h) n,
      PrimitiveToConserved_cell_out eos prim cons il iu jl ju kl ku k j i hout n⟩
  refine ⟨frame, ?_, ?_, ?_⟩
  · -- (2) the single-cell conversion
    intro k j i hin cons2 prim2 hc hp n
    have hone : (k ≤ k ∧ k ≤ k) ∧ (j ≤ j ∧ j ≤ j) ∧ (i ≤ i ∧ i ≤ i) :=
      ⟨⟨le_refl k, le_refl k⟩, ⟨le_refl j, le_refl j⟩, ⟨le_refl i, le_refl i⟩⟩
    have h1 := ConservedToPrimitive_cell_in eos cons prim il iu jl ju kl ku k j i hin
    have h2 := ConservedToPrimitive_cell_in eos cons2 prim2 i i j j k k k j i hone
    have hcell : HydroArrays.cell { cons := cons, prim := prim } k j i
        = HydroArrays.cell { cons := cons2, prim := prim2 } k j i := by
      unfold HydroArrays.cell
      refine Prod.ext ?_ ?_
      · funext m
        exact (hc m).symm
      · funext m
        exact (hp m).symm
    have h12 := (h1.trans (ConservedToPrimitive_body_congr eos _ k j i _ _ hcell)).trans
      h2.symm
    refine ⟨congrFun (congrArg Prod.fst h12) n, congrFun (congrArg Prod.snd h12) n, ?_⟩
    rw [PrimitiveToConserved_cell_in eos prim cons il iu jl ju kl ku k j i hin n,
      PrimitiveToConserved_cell_in eos prim2 cons2 i i j j k k k j i hone n]
    exact (PrimitiveToConserved_body_congr prim prim2 _ k j i cons cons2 hp hc n).symm
  · -- (3) any order of traversal
    intro l hnd hmem
    constructor
    · apply HydroArrays.eq_of_cells
      intro k j i
      have hf := ConservedToPrimitive_fold_cell eos (eos.GetGamma - 1.0) l hnd
        { cons := cons, prim := prim } k j i
      by_cases hin : (kl ≤ k ∧ k ≤ ku) ∧ (jl ≤ j ∧ j ≤ ju) ∧ (il ≤ i ∧ i ≤ iu)
      · rw [if_pos ((hmem k j i).mpr hin)] at hf
        have h1 := ConservedToPrimitive_cell_in eos cons prim il iu jl ju kl ku k j i hin
        have h := hf.trans h1.symm
        exact ⟨congrArg Prod.fst h, congrArg Prod.snd h⟩
      · rw [if_neg (fun hm => hin ((hmem k j i).mp hm))] at hf
        have h1 := ConservedToPrimitive_cell_out eos cons prim il iu jl ju kl ku k j i hin
        have h := hf.trans h1.symm
        exact ⟨congrArg Prod.fst h, congrArg Prod.snd h⟩
    · funext n k j i
      rw [PrimitiveToConserved_fold_cell prim _ l hnd cons k j i n]
      by_cases hin : (kl ≤ k ∧ k ≤ ku) ∧ (jl ≤ j ∧ j ≤ ju) ∧ (il ≤ i ∧ i ≤ iu)
      · rw [if_pos ((hmem k j i).mpr hin)]
        exact (PrimitiveToConserved_cell_in eos prim cons il iu jl ju kl ku k j i hin n).symm
      · rw [if_neg (fun hm => hin ((hmem k j i).mp hm))]
        exact (PrimitiveToConserved_cell_out eos prim cons il iu jl ju kl ku k j i hin n).symm
  · -- (4) the empty range
    intro hempty
    have hout : ∀ k j i : Int,
        ¬ ((kl ≤ k ∧ k ≤ ku) ∧ (jl ≤ j ∧ j ≤ ju) ∧ (il ≤ i ∧ i ≤ iu)) := by
      intro k j i hin
      omega
    constructor
    · apply HydroArrays.eq_of_cells
      intro k j i
      constructor
      · funext n
        exact (frame k j i n (hout k j i)).1
      · funext n
        exact (frame k j i n (hout k j i)).2.1
    · funext n k j i
      exact (frame k j i n (hout k j i)).2.2

/-- C14 at `demoEos`, `demoCons` and the range `[0,1] × [0,0] × [0,0]`: the cell `i = 2` is
outside and keeps its values, the cell `i = 1` holds the single-cell conversion. -/
theorem C14_sweeps_pointwise_witness :
    (ConservedToPrimitive demoEos demoCons zeroArray 0 1 0 0 0 0).prim IPR 0 0 2
        = zeroArray IPR 0 0 2
    ∧ (ConservedToPrimitive demoEos demoCons zeroArray 0 1 0 0 0 0).prim IPR 0 0 1
        = (ConservedToPrimitive demoEos demoCons zeroArray 1 1 0 0 0 0).prim IPR 0 0 1 :=
  ⟨((C14_sweeps_pointwise demoEos demoCons zeroArray 0 1 0 0 0 0).1 0 0 2 IPR
      (by decide)).2.1,
    ((C14_sweeps_pointwise demoEos demoCons zeroArray 0 1 0 0 0 0).2.1 0 0 1 (by decide)
      demoCons zeroArray (fun _ => rfl) (fun _ => rfl) IPR).2.1⟩

end TwoMix
